import Mathlib

/-!
# Verification of the tabular-data analysis backend

Shallow embedding of the repository's tool classes (EDA statistics helper,
chart renderer, database connectors, file-upload route, PDF loader) and
proofs of the specified properties.

Modelling conventions:
* Numeric cells are exact rationals; a missing cell (pandas `NaN`) is `none`.
  All arithmetic is interpreted exactly.
* Every operation returns `Except String payload`, mirroring the
  `{success, data?, error?}` envelope: `.ok` is `success: True`,
  `.error e` is `success: False` with error string `e`.
* Calls into external libraries that the repository does not implement
  (a database driver, the plotting backend) are represented by a dedicated
  constructor marking that control reached the library call with the given
  arguments; behaviour beyond that boundary is outside the model.
* Quantities that are irrational in exact arithmetic (standard deviations,
  Pearson/Spearman/Kendall coefficients) are carried as rational data from
  which the real value is recovered by `Real.sqrt` adapters used only in
  theorem statements.
-/

namespace DataTools

/-- A column of the in-memory dataset: numeric cells (`none` = NaN) or
text cells (`none` = missing). Other pandas dtypes (datetime, bool) do not
occur in any claim and are not modelled. -/
inductive ColumnData where
  | numeric (values : List (Option ℚ))
  | text (values : List (Option String))
deriving DecidableEq

/-- Number of cells in a column. -/
def ColumnData.length : ColumnData → ℕ
  | .numeric vs => vs.length
  | .text vs => vs.length

/-- The "current dataset": a pandas DataFrame, modelled column-major with
named, ordered columns. -/
structure DataFrame where
  cols : List (String × ColumnData)
deriving DecidableEq

/-- Column names, in order (`df.columns`). -/
def DataFrame.names (df : DataFrame) : List String :=
  df.cols.map Prod.fst

/-- Look up a column by name (first match; claims about per-name access
assume distinct names, as pandas label access on duplicates fails). -/
def DataFrame.find? (df : DataFrame) (c : String) : Option ColumnData :=
  (df.cols.find? (fun p => p.1 == c)).map Prod.snd

/-- `len(df)`: the row count, read off the first column (the frame is
rectangular). -/
def DataFrame.nRows (df : DataFrame) : ℕ :=
  match df.cols with
  | [] => 0
  | c :: _ => c.2.length

/-- `df.select_dtypes(include=[np.number])`: the numeric columns, in
original order. -/
def numericCols (df : DataFrame) : List (String × List (Option ℚ)) :=
  df.cols.filterMap (fun p =>
    match p.2 with
    | .numeric vs => some (p.1, vs)
    | .text _ => none)

/-- Names of the numeric columns. -/
def numericNames (df : DataFrame) : List String :=
  (numericCols df).map Prod.fst

/-- The non-null values of a list of cells (`series.dropna()`), order
preserved. -/
def dropNone (vs : List (Option ℚ)) : List ℚ :=
  vs.filterMap id

/-- Non-null values of a named column of `df` (empty if absent or text). -/
def nonNullValues (df : DataFrame) (c : String) : List ℚ :=
  match df.find? c with
  | some (.numeric vs) => dropNone vs
  | _ => []

/-! ## Numeric helpers (pandas `Series` reductions, exact arithmetic) -/

/-- `series.mean()`. Division by zero (empty list) yields the junk value 0;
every use is guarded by the caller exactly where the code would produce NaN. -/
def listMean (l : List ℚ) : ℚ :=
  l.sum / l.length

/-- Sum of squared deviations from the mean. -/
def sqDevSum (l : List ℚ) : ℚ :=
  (l.map (fun x => (x - listMean l) ^ 2)).sum

/-- `series.std() ** 2`: the sample variance (ddof = 1). `none` models the
NaN that pandas returns for fewer than two observations. The standard
deviation itself is `Real.sqrt` of this value. -/
def sampleVar (l : List ℚ) : Option ℚ :=
  if l.length ≤ 1 then none else some (sqDevSum l / ((l.length : ℚ) - 1))

/-- `series.min()` (`none` = NaN on empty input). -/
def listMin (l : List ℚ) : Option ℚ :=
  match l with
  | [] => none
  | x :: xs => some (xs.foldl min x)

/-- `series.max()` (`none` = NaN on empty input). -/
def listMax (l : List ℚ) : Option ℚ :=
  match l with
  | [] => none
  | x :: xs => some (xs.foldl max x)

/-- Linear interpolation of a sorted list at fractional position `pos`:
the value `s[i] + γ·(s[i+1] - s[i])` with `i = ⌊pos⌋` and `γ = pos - i`
(at the last index the out-of-range neighbour defaults to `s[i]`, making
the value `s[i]` exactly as the interpolation degenerates there). -/
def interpAt (s : List ℚ) (pos : ℚ) : ℚ :=
  let i : ℕ := ⌊pos⌋.toNat
  let γ : ℚ := pos - (i : ℚ)
  let a := s.getD i 0
  let b := s.getD (i + 1) a
  a + γ * (b - a)

/-- `series.quantile(q)` with the default linear interpolation: with the
`n` values sorted ascending, the value at fractional position `q*(n-1)`,
interpolating linearly between the two adjacent order statistics. Returns
the junk value 0 on an empty list (pandas returns NaN; every use is
guarded). -/
def quantile (q : ℚ) (l : List ℚ) : ℚ :=
  let s := l.insertionSort (· ≤ ·)
  if s.length = 0 then 0
  else interpAt s (q * ((s.length : ℚ) - 1))

/-- The column has nonzero variance: it holds two distinct (non-null)
values. -/
def nonzeroVariance (l : List ℚ) : Prop :=
  ∃ x ∈ l, ∃ y ∈ l, x ≠ y

instance (l : List ℚ) : Decidable (nonzeroVariance l) := by
  unfold nonzeroVariance; infer_instance

/-- Number of distinct non-null values (`series.nunique()`). -/
def ColumnData.nunique : ColumnData → ℕ
  | .numeric vs => (vs.filterMap id).dedup.length
  | .text vs => (vs.filterMap id).dedup.length

/-- Number of null cells (`series.isna().sum()`). -/
def ColumnData.nullCount : ColumnData → ℕ
  | .numeric vs => vs.countP (fun v => v.isNone)
  | .text vs => vs.countP (fun v => v.isNone)

/-- A cell of a row, for row-level duplicate detection. -/
inductive Cell where
  | num (v : Option ℚ)
  | str (v : Option String)
deriving DecidableEq

/-- The cell of a column at row `i`. -/
def ColumnData.cellAt : ColumnData → ℕ → Cell
  | .numeric vs, i => .num (vs.getD i none)
  | .text vs, i => .str (vs.getD i none)

/-- Row `i` of the frame as a named record. -/
def DataFrame.rowAt (df : DataFrame) (i : ℕ) : List (String × Cell) :=
  df.cols.map (fun p => (p.1, p.2.cellAt i))

/-- The rows of the frame, in order. -/
def DataFrame.rowsList (df : DataFrame) : List (List (String × Cell)) :=
  (List.range df.nRows).map df.rowAt

/-- `df.duplicated().sum()`: the number of rows that repeat an earlier row
(pandas treats NaN cells as equal for this purpose, as does the exact
model). -/
def DataFrame.duplicateRows (df : DataFrame) : ℕ :=
  df.nRows - df.rowsList.dedup.length

/-! ## Correlation coefficients (`numeric_df.corr(method=...)`)

A coefficient is carried as a pair `(num, d)` with actual value
`num / √d`; `none` models the NaN that pandas produces when the divisor is
zero (degenerate column on the pairwise-complete rows) or there are no
observations. All three supported methods share this representation, so
the claims about the matrix are proved uniformly. -/

/-- The rows where both cells are non-null; pandas computes every
pairwise coefficient over exactly these rows. -/
def validPairs (xs ys : List (Option ℚ)) : List (ℚ × ℚ) :=
  (xs.zip ys).filterMap (fun p =>
    match p with
    | (some a, some b) => some (a, b)
    | _ => none)

/-- Pearson coefficient of two equal-length (already non-null) lists:
`num` is the cross-deviation sum, `d` the product of the squared-deviation
sums, so `r = num / √(d)` — the textbook formula with numerator and
denominator not normalised by `n` (the ratio is unchanged). -/
def pearsonNum (as bs : List ℚ) : Option (ℚ × ℚ) :=
  if as.length = 0 then none
  else
    let μa := listMean as
    let μb := listMean bs
    let cov := ((as.zip bs).map (fun p => (p.1 - μa) * (p.2 - μb))).sum
    let d := sqDevSum as * sqDevSum bs
    if d = 0 then none else some (cov, d)

/-- Pearson correlation of two columns over pairwise-complete rows. -/
def corrPearson (xs ys : List (Option ℚ)) : Option (ℚ × ℚ) :=
  let v := validPairs xs ys
  pearsonNum (v.map Prod.fst) (v.map Prod.snd)

/-- The average (mid) rank of `x` within `l`: one-based, ties receive the
mean of their positions. -/
def avgRank (l : List ℚ) (x : ℚ) : ℚ :=
  (l.countP (fun y => decide (y < x)) : ℚ) +
    ((l.countP (fun y => decide (y = x)) : ℚ) + 1) / 2

/-- The rank vector of a list. -/
def ranksOf (l : List ℚ) : List ℚ :=
  l.map (avgRank l)

/-- Spearman correlation: Pearson on the rank vectors of the
pairwise-complete rows. -/
def corrSpearman (xs ys : List (Option ℚ)) : Option (ℚ × ℚ) :=
  let v := validPairs xs ys
  pearsonNum (ranksOf (v.map Prod.fst)) (ranksOf (v.map Prod.snd))

/-- All index-ordered pairs of elements of a list. -/
def tailPairs : List α → List (α × α)
  | [] => []
  | x :: xs => xs.map (fun y => (x, y)) ++ tailPairs xs

/-- Kendall tau-b over the pairwise-complete rows:
`num = P - Q` (concordant minus discordant pairs) and
`d = (n0 - n1)·(n0 - n2)` (pairs not tied in the first, resp. second,
coordinate), so `tau = num / √d`; NaN when either factor is zero. -/
def corrKendall (xs ys : List (Option ℚ)) : Option (ℚ × ℚ) :=
  let v := validPairs xs ys
  let pp := tailPairs v
  let cP := pp.countP (fun q => decide (0 < (q.1.1 - q.2.1) * (q.1.2 - q.2.2)))
  let cQ := pp.countP (fun q => decide ((q.1.1 - q.2.1) * (q.1.2 - q.2.2) < 0))
  let n0 := pp.length
  let n1 := pp.countP (fun q => decide (q.1.1 = q.2.1))
  let n2 := pp.countP (fun q => decide (q.1.2 = q.2.2))
  let d := ((n0 : ℚ) - n1) * ((n0 : ℚ) - n2)
  if d = 0 then none else some ((cP : ℚ) - cQ, d)

/-- The correlation function selected by the `method` string; `none` for a
method pandas rejects. -/
def corrFnFor (method : String) :
    Option (List (Option ℚ) → List (Option ℚ) → Option (ℚ × ℚ)) :=
  if method = "pearson" then some corrPearson
  else if method = "spearman" then some corrSpearman
  else if method = "kendall" then some corrKendall
  else none

/-- The full correlation matrix over the numeric columns. -/
def corrMatrix (corrFn : List (Option ℚ) → List (Option ℚ) → Option (ℚ × ℚ))
    (ncols : List (String × List (Option ℚ))) : List (List (Option (ℚ × ℚ))) :=
  ncols.map (fun a => ncols.map (fun b => corrFn a.2 b.2))

/-- Entry `(i, j)` of the nested-list correlation matrix
(`corr_matrix.loc[col_i, col_j]`; `none` past the edges). -/
def matrixEntry (m : List (List (Option (ℚ × ℚ)))) (i j : ℕ) : Option (ℚ × ℚ) :=
  (m.getD i []).getD j none

/-- The cells of the `i`-th numeric column of the frame. -/
def numericColAt (df : DataFrame) (i : ℕ) : List (Option ℚ) :=
  ((numericCols df).getD i ("", [])).2

/-- One step of the `high_correlations` nested loop: for the index pair
`ij` with `ij.1 < ij.2`, keep the entry when `|corr| > 0.7`; in the
`(num, d)` representation with `d > 0` that test is `49·d < 100·num²`.
The reported `round(corr_val, 4)` float is presentational and the exact
pair is carried instead. -/
def highBody (names : List String) (m : List (List (Option (ℚ × ℚ))))
    (ij : ℕ × ℕ) : Option (String × String × ℚ × ℚ) :=
  if ij.1 < ij.2 then
    match matrixEntry m ij.1 ij.2 with
    | some p =>
        if 49 * p.2 < 100 * p.1 ^ 2 then
          some (names.getD ij.1 "", names.getD ij.2 "", p)
        else none
    | none => none
  else none

/-- The `high_correlations` list: the nested loop over ordered column
index pairs. -/
def highPairs (names : List String) (m : List (List (Option (ℚ × ℚ)))) :
    List (String × String × ℚ × ℚ) :=
  ((List.range names.length).product (List.range names.length)).filterMap
    (highBody names m)

/-- Payload of a successful `get_correlations` call. -/
structure CorrResult where
  columns : List String
  matrix : List (List (Option (ℚ × ℚ)))
  highCorrelations : List (String × String × ℚ × ℚ)
deriving DecidableEq

/-- `EDATool.get_correlations`. The `numeric_df.empty` guard covers both
"no numeric columns" and "no rows"; the method string is validated inside
the library's `corr` call, after that guard. -/
def get_correlations (cur : Option DataFrame) (method : String) :
    Except String CorrResult :=
  match cur with
  | none => .error "No data loaded"
  | some df =>
    let ncols := numericCols df
    if ncols.isEmpty || df.nRows = 0 then .error "No numeric columns for correlation"
    else
      match corrFnFor method with
      | none => .error ("method must be either pearson, spearman, kendall or a callable: " ++ method)
      | some corrFn =>
        let names := ncols.map Prod.fst
        let m := corrMatrix corrFn ncols
        .ok { columns := names, matrix := m, highCorrelations := highPairs names m }

/-! ## Outlier detection (`EDATool.detect_outliers`) -/

/-- The bounds of a successful outlier call. For `iqr` both bounds are
exact rationals. For `zscore` the code returns `mean ∓ 3·std`; since
`std = √variance` is irrational, the pair `(mean, variance)` is carried and
the real bounds are recovered by the `Real.sqrt` adapters below;
`variance = none` models the NaN std of a singleton column. -/
inductive OutlierBounds where
  | iqr (lowerBound upperBound : ℚ)
  | zscore (mean : ℚ) (variance : Option ℚ)
deriving DecidableEq

/-- Payload of a successful `detect_outliers` call. `outlier_percentage`
(`outlierCount / dataCount · 100`, rounded) is presentational and carried
through `dataCount` instead. -/
structure OutlierResult where
  column : String
  method : String
  outlierCount : ℕ
  dataCount : ℕ
  bounds : OutlierBounds
deriving DecidableEq

/-- The z-score test `abs((x - mean) / std) > 3` in exact arithmetic:
for `std > 0` it is equivalent to `(x - mean)² > 9·variance`, for
`std = 0` both the float test (NaN or infinite z never compares true on
all-equal data) and the squared test reject every point, and for
`variance = none` (NaN std) the float comparison with NaN is false. -/
def zscoreOutlier (μ : ℚ) (v : Option ℚ) (x : ℚ) : Bool :=
  match v with
  | some v => decide (9 * v < (x - μ) ^ 2)
  | none => false

/-- `EDATool.detect_outliers`. An empty (all-null) column reaches the
`outlier_percentage` division by `len(data)` and raises, caught as the
envelope error `division by zero`; a text column raises a `TypeError`
inside the numeric reductions (message abbreviated). The unknown-method
branch is reached before any of that. -/
def detect_outliers (cur : Option DataFrame) (column method : String) :
    Except String OutlierResult :=
  match cur with
  | none => .error "No data loaded"
  | some df =>
    match df.find? column with
    | none => .error ("Column not found: " ++ column)
    | some cd =>
      if method = "iqr" then
        match cd with
        | .text _ => .error "TypeError: unorderable types in quantile"
        | .numeric vs =>
          let data := dropNone vs
          let q1 := quantile (1/4) data
          let q3 := quantile (3/4) data
          let iqrv := q3 - q1
          let lb := q1 - 3/2 * iqrv
          let ub := q3 + 3/2 * iqrv
          let outliers := data.filter (fun x => decide (x < lb) || decide (ub < x))
          if data.length = 0 then .error "division by zero"
          else .ok { column := column, method := method,
                     outlierCount := outliers.length, dataCount := data.length,
                     bounds := .iqr lb ub }
      else if method = "zscore" then
        match cd with
        | .text _ => .error "TypeError: unsupported operand types for mean"
        | .numeric vs =>
          let data := dropNone vs
          let μ := listMean data
          let v := sampleVar data
          let outliers := data.filter (zscoreOutlier μ v)
          if data.length = 0 then .error "division by zero"
          else .ok { column := column, method := method,
                     outlierCount := outliers.length, dataCount := data.length,
                     bounds := .zscore μ v }
      else .error ("Unknown method: " ++ method)

/-! ## Remaining EDA operations -/

/-- Payload of a successful `get_value_counts` call. The top-N frequency
map itself is presentational (its tie order is unspecified by the library)
and no claim references it; its size is carried. -/
structure ValueCountsResult where
  column : String
  returnedCount : ℕ
  totalUnique : ℕ
deriving DecidableEq

/-- `EDATool.get_value_counts`. -/
def get_value_counts (cur : Option DataFrame) (column : String) (topN : ℕ) :
    Except String ValueCountsResult :=
  match cur with
  | none => .error "No data loaded"
  | some df =>
    match df.find? column with
    | none => .error ("Column not found: " ++ column)
    | some cd => .ok { column := column, returnedCount := min topN cd.nunique,
                       totalUnique := cd.nunique }

/-- Exact per-column descriptive statistics. `std`, `skewness` and
`kurtosis` are irrational-valued, referenced by no claim, and omitted. -/
structure ColStats where
  count : ℕ
  mean : Option ℚ
  min : Option ℚ
  max : Option ℚ
  median : Option ℚ
  q25 : Option ℚ
  q75 : Option ℚ
deriving DecidableEq

/-- The descriptive statistics of one numeric column (`none` = the NaN a
reduction of an empty series produces). -/
def colStatsOf (vs : List (Option ℚ)) : ColStats :=
  let data := dropNone vs
  { count := data.length
    mean := if data.length = 0 then none else some (listMean data)
    min := listMin data
    max := listMax data
    median := if data.length = 0 then none else some (quantile (1/2) data)
    q25 := if data.length = 0 then none else some (quantile (1/4) data)
    q75 := if data.length = 0 then none else some (quantile (3/4) data) }

/-- Payload of a successful `get_statistics` call. -/
structure StatsResult where
  columnsAnalyzed : List String
  statistics : List (String × ColStats)
deriving DecidableEq

/-- `EDATool.get_statistics`. With an explicit (non-empty) column list the
code keeps only the names that are numeric columns of the frame — absent
names are silently dropped; with `None` (or an empty list, which is falsy)
all numeric columns are used. -/
def get_statistics (cur : Option DataFrame) (columns : Option (List String)) :
    Except String StatsResult :=
  match cur with
  | none => .error "No data loaded"
  | some df =>
    let numericAll := numericNames df
    let numericSel :=
      match columns with
      | some cs => if cs.isEmpty then numericAll else cs.filter (fun c => numericAll.contains c)
      | none => numericAll
    if numericSel.isEmpty then .error "No numeric columns found"
    else
      .ok { columnsAnalyzed := numericSel
            statistics := numericSel.map (fun c =>
              (c, colStatsOf (match df.find? c with
                              | some (.numeric vs) => vs
                              | _ => []))) }

/-- Per-column portion of `get_basic_info` (derived percentages and the
dtype string are presentational and omitted). -/
structure ColInfo where
  name : String
  nonNull : ℕ
  nullCount : ℕ
  uniqueValues : ℕ
deriving DecidableEq

/-- Payload of a successful `get_basic_info` call (`memory_usage` is a
library-internal figure and omitted). -/
structure BasicInfo where
  rows : ℕ
  columnsCount : ℕ
  duplicates : ℕ
  columns : List ColInfo
deriving DecidableEq

/-- `EDATool.get_basic_info`. -/
def get_basic_info (cur : Option DataFrame) : Except String BasicInfo :=
  match cur with
  | none => .error "No data loaded"
  | some df =>
    .ok { rows := df.nRows
          columnsCount := df.cols.length
          duplicates := df.duplicateRows
          columns := df.cols.map (fun p =>
            { name := p.1
              nonNull := p.2.length - p.2.nullCount
              nullCount := p.2.nullCount
              uniqueValues := p.2.nunique }) }

/-- Payload of a successful `get_data_quality_report` call (percentage
fields are derived from these counts and omitted). -/
structure QualityReport where
  totalRows : ℕ
  totalColumns : ℕ
  totalCells : ℕ
  missingCells : ℕ
  duplicateRows : ℕ
deriving DecidableEq

/-- `EDATool.get_data_quality_report`. -/
def get_data_quality_report (cur : Option DataFrame) : Except String QualityReport :=
  match cur with
  | none => .error "No data loaded"
  | some df =>
    .ok { totalRows := df.nRows
          totalColumns := df.cols.length
          totalCells := df.nRows * df.cols.length
          missingCells := (df.cols.map (fun p => p.2.nullCount)).sum
          duplicateRows := df.duplicateRows }

instance {ε α : Type} [DecidableEq ε] [DecidableEq α] : DecidableEq (Except ε α) := fun a b =>
  match a, b with
  | .error e, .error f =>
      decidable_of_iff (e = f) (by constructor <;> (intro h; cases h; rfl))
  | .error _, .ok _ => isFalse (by intro h; cases h)
  | .ok _, .error _ => isFalse (by intro h; cases h)
  | .ok x, .ok y =>
      decidable_of_iff (x = y) (by constructor <;> (intro h; cases h; rfl))

/-- Payload of a successful `get_full_eda_report` call: the four nested
envelopes as returned by the sub-calls. -/
structure FullReport where
  basicInfo : Except String BasicInfo
  statistics : Except String StatsResult
  correlations : Except String CorrResult
  dataQuality : Except String QualityReport
deriving DecidableEq

/-- `EDATool.get_full_eda_report`. -/
def get_full_eda_report (cur : Option DataFrame) : Except String FullReport :=
  match cur with
  | none => .error "No data loaded"
  | some df =>
    .ok { basicInfo := get_basic_info (some df)
          statistics := get_statistics (some df) none
          correlations := get_correlations (some df) "pearson"
          dataQuality := get_data_quality_report (some df) }

/-- Payload of a successful `load_data` call. -/
structure LoadResult where
  rows : ℕ
  columnsCount : ℕ
  columnNames : List String
deriving DecidableEq

/-- `EDATool.load_data`: assigns `current_data` first, then builds the
response; with `data = None` the `len(data)` call raises after the
assignment, so the state still becomes `None`. -/
def load_data (data : Option DataFrame) :
    Option DataFrame × Except String LoadResult :=
  match data with
  | none => (none, .error "object of type NoneType has no len()")
  | some d => (some d, .ok { rows := d.nRows, columnsCount := d.cols.length,
                             columnNames := d.names })

/-- The keyword arguments of `EDATool.run`; `none` models an absent key,
with the code's `kwargs.get` defaults applied at each dispatch site. -/
structure EDAArgs where
  data : Option DataFrame := none
  columns : Option (List String) := none
  method : Option String := none
  column : Option String := none
  topN : Option ℕ := none

/-- The possible payloads of `EDATool.run`. -/
inductive EDAOut where
  | load (r : LoadResult)
  | info (r : BasicInfo)
  | statistics (r : StatsResult)
  | correlations (r : CorrResult)
  | valueCounts (r : ValueCountsResult)
  | outliers (r : OutlierResult)
  | quality (r : QualityReport)
  | fullReport (r : FullReport)
deriving DecidableEq

/-- `EDATool.run`: the string-keyed action dispatch. Returns the updated
`current_data` (only `load` mutates it) and the envelope. -/
def eda_run (cur : Option DataFrame) (action : String) (args : EDAArgs) :
    Option DataFrame × Except String EDAOut :=
  if action = "load" then
    let r := load_data args.data
    (r.1, r.2.map .load)
  else if action = "info" then (cur, (get_basic_info cur).map .info)
  else if action = "statistics" then (cur, (get_statistics cur args.columns).map .statistics)
  else if action = "correlations" then
    (cur, (get_correlations cur (args.method.getD "pearson")).map .correlations)
  else if action = "value_counts" then
    (cur, (get_value_counts cur (args.column.getD "") (args.topN.getD 10)).map .valueCounts)
  else if action = "outliers" then
    (cur, (detect_outliers cur (args.column.getD "") (args.method.getD "iqr")).map .outliers)
  else if action = "quality" then (cur, (get_data_quality_report cur).map .quality)
  else if action = "full_report" then (cur, (get_full_eda_report cur).map .fullReport)
  else (cur, .error ("Unknown action: " ++ action))

/-! ## Chart renderer (`ChartTool`)

Each chart method validates the shared dataset and then hands the frame to
the plotting library. A successful return is modelled by a `ChartCall`
value recording which library call was reached and with which arguments;
rendering behaviour beyond that boundary (including library-side failures
on ill-typed columns) is outside the model. Frame indexing performed by
the repository's own code before the library call (`df[columns]`) is
modelled. -/

/-- The plotting-library call reached by a chart method. -/
inductive ChartCall where
  | bar (x y : Option String) (title : String) (color : Option String) (orientation : String)
  | line (x y : Option String) (title : String) (color : Option String)
  | scatter (x y : Option String) (title : String) (color size : Option String)
  | histogram (column : Option String) (title : String) (bins : ℕ) (color : Option String)
  | box (y : Option String) (x : Option String) (title : String)
  | heatmap (matrix : List (List (Option (ℚ × ℚ)))) (title : String)
  | pie (values names : Option String) (title : String)
  | distribution (columns : List String) (title : String)
  | pairPlot (dimensions : List String) (color : Option String)
deriving DecidableEq

/-- `ChartTool.bar_chart`. -/
def bar_chart (cur : Option DataFrame) (x y : Option String) (title : String)
    (color : Option String) (orientation : String) : Except String ChartCall :=
  match cur with
  | none => .error "No data loaded"
  | some _ => .ok (.bar x y title color orientation)

/-- `ChartTool.line_chart`. -/
def line_chart (cur : Option DataFrame) (x y : Option String) (title : String)
    (color : Option String) : Except String ChartCall :=
  match cur with
  | none => .error "No data loaded"
  | some _ => .ok (.line x y title color)

/-- `ChartTool.scatter_plot`. -/
def scatter_plot (cur : Option DataFrame) (x y : Option String) (title : String)
    (color size : Option String) : Except String ChartCall :=
  match cur with
  | none => .error "No data loaded"
  | some _ => .ok (.scatter x y title color size)

/-- `ChartTool.histogram`. -/
def histogram (cur : Option DataFrame) (column : Option String) (title : String)
    (bins : ℕ) (color : Option String) : Except String ChartCall :=
  match cur with
  | none => .error "No data loaded"
  | some _ => .ok (.histogram column title bins color)

/-- `ChartTool.box_plot`. -/
def box_plot (cur : Option DataFrame) (y : Option String) (x : Option String)
    (title : String) : Except String ChartCall :=
  match cur with
  | none => .error "No data loaded"
  | some _ => .ok (.box y x title)

/-- `ChartTool.heatmap`: computes `numeric_df.corr()` (Pearson default)
and renders it; the `numeric_df.empty` guard mirrors `get_correlations`. -/
def heatmap (cur : Option DataFrame) (title : String) : Except String ChartCall :=
  match cur with
  | none => .error "No data loaded"
  | some df =>
    let ncols := numericCols df
    if ncols.isEmpty || df.nRows = 0 then .error "No numeric columns for heatmap"
    else .ok (.heatmap (corrMatrix corrPearson ncols) title)

/-- `ChartTool.pie_chart`. -/
def pie_chart (cur : Option DataFrame) (values names : Option String)
    (title : String) : Except String ChartCall :=
  match cur with
  | none => .error "No data loaded"
  | some _ => .ok (.pie values names title)

/-- `ChartTool.distribution_plot`: indexes `df[col]` for each requested
column before rendering (a missing name raises a `KeyError`, caught as the
envelope error); an empty column list makes the subplot grid constructor
raise. -/
def distribution_plot (cur : Option DataFrame) (columns : List String)
    (title : String) : Except String ChartCall :=
  match cur with
  | none => .error "No data loaded"
  | some df =>
    if columns.isEmpty then .error "The number of columns must be greater than 0"
    else if columns.all (fun c => df.names.contains c) then .ok (.distribution columns title)
    else .error "KeyError: column not found"

/-- The dimension selection of `ChartTool.pair_plot`: a non-empty
caller-supplied list selects `df[columns]` (every name must exist —
pandas raises a `KeyError` otherwise); a missing or empty (falsy) list
selects all numeric columns. -/
def pairPlotSelection (df : DataFrame) (columns : Option (List String)) :
    Except String (List String) :=
  match columns with
  | some cs =>
    if !cs.isEmpty then
      if cs.all (fun c => df.names.contains c) then .ok cs
      else .error "KeyError: columns not in index"
    else .ok (numericNames df)
  | none => .ok (numericNames df)

/-- `ChartTool.pair_plot`: selects the dimension columns, truncates to the
first 6 when more than 6 are selected, and hands the dimension names to
the scatter-matrix renderer. -/
def pair_plot (cur : Option DataFrame) (columns : Option (List String))
    (color : Option String) : Except String ChartCall :=
  match cur with
  | none => .error "No data loaded"
  | some df =>
    match pairPlotSelection df columns with
    | .error e => .error e
    | .ok plotCols =>
      let capped := if plotCols.length > 6 then plotCols.take 6 else plotCols
      .ok (.pairPlot capped color)

/-- The JSON body fields of the `/api/chart/create` route (`none` models
an absent key; `get` defaults are applied at each dispatch site). -/
structure ChartReq where
  x : Option String := none
  y : Option String := none
  column : Option String := none
  columns : Option (List String) := none
  values : Option String := none
  pieNames : Option String := none
  title : Option String := none
  color : Option String := none
  size : Option String := none
  orientation : Option String := none
  bins : Option ℕ := none

/-- The `chart_create` route: string-keyed dispatch over `data.get('type',
'bar')`, failing with an error naming the unknown chart type. -/
def chart_create (cur : Option DataFrame) (chartType : Option String)
    (req : ChartReq) : Except String ChartCall :=
  let t := chartType.getD "bar"
  if t = "bar" then
    bar_chart cur req.x req.y (req.title.getD "Bar Chart") req.color (req.orientation.getD "v")
  else if t = "line" then
    line_chart cur req.x req.y (req.title.getD "Line Chart") req.color
  else if t = "scatter" then
    scatter_plot cur req.x req.y (req.title.getD "Scatter Plot") req.color req.size
  else if t = "histogram" then
    histogram cur req.column (req.title.getD "Histogram") (req.bins.getD 30) req.color
  else if t = "box" then
    box_plot cur req.y req.x (req.title.getD "Box Plot")
  else if t = "heatmap" then
    heatmap cur (req.title.getD "Correlation Heatmap")
  else if t = "pie" then
    pie_chart cur req.values req.pieNames (req.title.getD "Pie Chart")
  else if t = "distribution" then
    distribution_plot cur (req.columns.getD []) (req.title.getD "Distribution Plot")
  else if t = "pair_plot" then
    pair_plot cur req.columns req.color
  else .error ("Unknown chart type: " ++ t)

/-! ## Database connectors

`connect` validates the required fields and only then calls the driver.
Both call sites construct the configuration dict with every key present
(request fields default to `''`, environment defaults likewise), so a
missing field is modelled as the empty string — exactly the values that
are falsy under the code's `not conn_config.get(k)` test. The driver call
is represented by the `attemptNetwork` constructor (the driver may still
fail; that is outside the model). -/

/-- Outcome of a connector's `connect`. -/
inductive ConnectOutcome where
  | failFast (error message : String)
  | attemptNetwork (params : List (String × String))
deriving DecidableEq

/-- Effective Snowflake configuration. -/
structure SnowflakeConfig where
  account : String := ""
  user : String := ""
  password : String := ""
  warehouse : String := ""
  database : String := ""
  schemaName : String := ""
deriving DecidableEq

/-- `SnowflakeTool.connect`. -/
def snowflake_connect (cfg : SnowflakeConfig) : ConnectOutcome :=
  if cfg.account = "" || cfg.user = "" then
    .failFast "Missing required Snowflake configuration (account, user)"
      "Please provide Snowflake connection details"
  else
    .attemptNetwork [("account", cfg.account), ("user", cfg.user),
      ("password", cfg.password), ("warehouse", cfg.warehouse),
      ("database", cfg.database), ("schema", cfg.schemaName)]

/-- Effective SQL Server configuration. -/
structure SQLServerConfig where
  host : String := ""
  port : String := "1433"
  database : String := ""
  user : String := ""
  password : String := ""
deriving DecidableEq

/-- `SQLServerTool.connect`. -/
def sqlserver_connect (cfg : SQLServerConfig) : ConnectOutcome :=
  if cfg.host = "" || cfg.user = "" then
    .failFast "Missing required SQL Server configuration (host, user)"
      "Please provide SQL Server connection details"
  else
    .attemptNetwork [("server", cfg.host), ("port", cfg.port),
      ("database", cfg.database), ("user", cfg.user), ("password", cfg.password)]

/-! ## Tabular file upload (`routes.data_upload`) -/

/-- The characters after the last dot, lowercased:
`filename.rsplit('.', 1)[1].lower()` (meaningful only when a dot is
present, as in the code, where it is guarded by `'.' in filename`). -/
def lowerExt (filename : String) : List Char :=
  ((filename.data.reverse.takeWhile (fun c => c != '.')).reverse).map Char.toLower

/-- `routes.allowed_file`: the filename contains a dot and the lowercased
text after the last dot is an allowed extension. Stated over the
character lists underlying the strings. -/
def allowed_file (filename : String) (allowedExtensions : List String) : Bool :=
  filename.data.contains '.' &&
    (allowedExtensions.map String.data).contains (lowerExt filename)

/-- The JSON response of a successful tabular upload. -/
structure UploadResponse where
  rows : ℕ
  columns : List String
  preview : List (List (String × Cell))
deriving DecidableEq

/-- Outcome of the upload route. `rejectedBeforeSave` returns are issued
before `file.save(filepath)` executes; `loadFailed` models an exception
from the `pd.read_*` call after the file was written. -/
inductive UploadOutcome where
  | rejectedBeforeSave (error : String)
  | loadFailed (error : String)
  | loaded (resp : UploadResponse)
deriving DecidableEq

/-- `df.head(n).to_dict('records')`: the first `min n rows` rows as named
records. -/
def DataFrame.headRecords (df : DataFrame) (n : ℕ) : List (List (String × Cell)) :=
  (List.range (min n df.nRows)).map df.rowAt

/-- Case-sensitive `str.endswith(suffix)`, over the underlying character
lists. -/
def endsWith (s suf : String) : Bool :=
  suf.data.isSuffixOf s.data

/-- `routes.data_upload`. `secured` is `secure_filename(file.filename)`
(a library call, passed in as an input); `prior` is the shared
`current_dataframe` global before the call; `parsed` models the result of
the `pd.read_*` call selected by the case-sensitive `endswith` dispatch,
when one runs at all. When no `endswith` test matches (the validation
lowercases the extension but the dispatch does not), `current_dataframe`
is left as `prior`, so the response reports the prior frame's shape — or,
when no dataset was loaded, `len(None)` raises the `TypeError` that the
`except` turns into an error envelope. `loaded` additionally stands for
the side effect of installing the reported frame as the shared current
dataset. -/
def data_upload (fileProvided : Bool) (filename secured : String)
    (prior : Option DataFrame) (parsed : Except String DataFrame) :
    UploadOutcome :=
  if !fileProvided then .rejectedBeforeSave "No file provided"
  else if filename = "" then .rejectedBeforeSave "No file selected"
  else if !(allowed_file filename ["csv", "xlsx", "xls", "json"]) then
    .rejectedBeforeSave "Only CSV, Excel, and JSON files are allowed"
  else if endsWith secured ".csv" || (endsWith secured ".xlsx" || endsWith secured ".xls")
      || endsWith secured ".json" then
    match parsed with
    | .error e => .loadFailed e
    | .ok df => .loaded { rows := df.nRows, columns := df.names,
                          preview := df.headRecords 100 }
  else
    match prior with
    | none => .loadFailed "object of type 'NoneType' has no len()"
    | some df => .loaded { rows := df.nRows, columns := df.names,
                           preview := df.headRecords 100 }

/-! ## PDF loader (`PDFLoaderTool`) -/

/-- What the loader finds at a path: no file, an unreadable file (the
reader raises), or a PDF with per-page extracted text. -/
inductive FSEntry where
  | missing
  | unreadable (error : String)
  | pdf (pages : List String)

/-- The disk contents, as seen by the loader. -/
abbrev FileSystem := String → FSEntry

/-- `loaded_documents`: filename to extracted text, insertion-ordered. -/
abbrev PDFState := List (String × String)

/-- `os.path.basename`. -/
def pdfBasename (path : String) : String :=
  (path.splitOn "/").getLastD path

/-- The page-delimiter header prepended to each non-empty page. -/
def pdfPageText (idx : ℕ) (t : String) : String :=
  "--- Page " ++ toString idx ++ " ---\n" ++ t

/-- Python dict assignment: replace in place if present, else append. -/
def dictInsert (st : PDFState) (k v : String) : PDFState :=
  if st.any (fun q => q.1 == k) then
    st.map (fun q => if q.1 == k then (k, v) else q)
  else st ++ [(k, v)]

/-- Payload of a successful `load_pdf` call. -/
structure PDFLoadInfo where
  filename : String
  pageCount : ℕ
  characterCount : ℕ
  content : String
  message : String
deriving DecidableEq

/-- Outcome of `load_pdf`: the missing-file envelope carries only an
error string, while a caught reader exception carries both an error and a
message — `load_multiple_pdfs` distinguishes them via `result.get`. -/
inductive PDFLoadOutcome where
  | ok (info : PDFLoadInfo)
  | errorOnly (error : String)
  | errorWithMessage (error message : String)
deriving DecidableEq

/-- `PDFLoaderTool.load_pdf`. Pages whose extracted text is empty (falsy)
are skipped; the rest are joined with blank lines. -/
def load_pdf (fs : FileSystem) (st : PDFState) (filePath : String) :
    PDFState × PDFLoadOutcome :=
  match fs filePath with
  | .missing => (st, .errorOnly ("File not found: " ++ filePath))
  | .unreadable e => (st, .errorWithMessage e ("Failed to load PDF: " ++ filePath))
  | .pdf pages =>
    let fullText := String.intercalate "\n\n"
      ((List.enumFrom 1 pages).filterMap
        (fun p => if p.2 = "" then none else some (pdfPageText p.1 p.2)))
    let filename := pdfBasename filePath
    (dictInsert st filename fullText,
      .ok { filename := filename, pageCount := pages.length,
            characterCount := fullText.length, content := fullText,
            message := "Successfully loaded " ++ filename ++ " ("
              ++ toString pages.length ++ " pages)" })

/-- One entry of the `results` list of `load_multiple_pdfs`:
`result.get('message', result.get('error', ''))`. -/
structure FileLoadSummary where
  file : String
  success : Bool
  message : String
deriving DecidableEq

/-- Aggregate result of `load_multiple_pdfs`. -/
structure MultiLoadResult where
  success : Bool
  total : ℕ
  successful : ℕ
  failed : ℕ
  results : List FileLoadSummary
deriving DecidableEq

/-- The loop body of `load_multiple_pdfs`: threads the document cache
through the files in order, building (result list, successful, failed). -/
def loadLoop (fs : FileSystem) (st : PDFState) :
    List String → PDFState × List FileLoadSummary × ℕ × ℕ
  | [] => (st, [], 0, 0)
  | p :: ps =>
    let r := load_pdf fs st p
    let rest := loadLoop fs r.1 ps
    match r.2 with
    | .ok info =>
        (rest.1, { file := p, success := true, message := info.message } :: rest.2.1,
          rest.2.2.1 + 1, rest.2.2.2)
    | .errorOnly e =>
        (rest.1, { file := p, success := false, message := e } :: rest.2.1,
          rest.2.2.1, rest.2.2.2 + 1)
    | .errorWithMessage _ m =>
        (rest.1, { file := p, success := false, message := m } :: rest.2.1,
          rest.2.2.1, rest.2.2.2 + 1)

/-- `PDFLoaderTool.load_multiple_pdfs`. -/
def load_multiple_pdfs (fs : FileSystem) (st : PDFState) (filePaths : List String) :
    PDFState × MultiLoadResult :=
  let r := loadLoop fs st filePaths
  (r.1, { success := r.2.2.2 == 0, total := filePaths.length,
          successful := r.2.2.1, failed := r.2.2.2, results := r.2.1 })

/-! ## Real-valued adapters

The code returns `mean ∓ 3·std` and `num / √d` as floating-point numbers;
in the exact model the corresponding real numbers are recovered here.
These definitions appear only in theorem statements. -/

/-- The real lower bound returned by `detect_outliers`. The
`.zscore _ none` case is the NaN bound of a singleton column, which has no
real counterpart; the claims treat it separately and never read this
junk value. -/
noncomputable def OutlierBounds.realLower : OutlierBounds → ℝ
  | .iqr l _ => (l : ℝ)
  | .zscore m (some v) => (m : ℝ) - 3 * Real.sqrt (v : ℝ)
  | .zscore _ none => 0

/-- The real upper bound returned by `detect_outliers` (see
`OutlierBounds.realLower`). -/
noncomputable def OutlierBounds.realUpper : OutlierBounds → ℝ
  | .iqr _ u => (u : ℝ)
  | .zscore m (some v) => (m : ℝ) + 3 * Real.sqrt (v : ℝ)
  | .zscore _ none => 0

/-- The real correlation coefficient represented by a `(num, d)` pair. -/
noncomputable def corrReal (p : ℚ × ℚ) : ℝ :=
  (p.1 : ℝ) / Real.sqrt (p.2 : ℝ)

/-! ## Example data used by witnesses and counterexamples -/

/-- A one-column frame with values 1, 2, 3. -/
def exDF : DataFrame := ⟨[("a", .numeric [some 1, some 2, some 3])]⟩

/-- A one-column frame with values 1, 2, 3, 4. -/
def exDF4 : DataFrame := ⟨[("a", .numeric [some 1, some 2, some 3, some 4])]⟩

/-- A one-column frame with values 0, 1, 1, 1, 1, 1, 2: its quartiles
coincide (both are 1) although the variance is nonzero. -/
def exDF7 : DataFrame := ⟨[("a", .numeric [some 0, some 1, some 1, some 1, some 1, some 1, some 2])]⟩

/-- An eight-numeric-column frame for the pair-plot dimension cap. -/
def exDF8 : DataFrame :=
  ⟨[("c1", .numeric [some 1]), ("c2", .numeric [some 2]), ("c3", .numeric [some 3]),
    ("c4", .numeric [some 4]), ("c5", .numeric [some 5]), ("c6", .numeric [some 6]),
    ("c7", .numeric [some 7]), ("c8", .numeric [some 8])]⟩

/-- A two-numeric-column frame whose columns are perfectly correlated. -/
def exDF2 : DataFrame :=
  ⟨[("a", .numeric [some 1, some 2, some 3]), ("b", .numeric [some 2, some 4, some 6]),
    ("t", .text [some "x", some "y", none])]⟩

/-- The outlier result of the iqr method on `exDF4`. -/
def exOutlierResult4 : OutlierResult :=
  { column := "a", method := "iqr", outlierCount := 0, dataCount := 4,
    bounds := .iqr (-(1/2)) (11/2) }

/-- The Pearson correlation result on `exDF2`. -/
def exCorrResult2 : CorrResult :=
  { columns := ["a", "b"],
    matrix := [[some (2, 4), some (4, 16)], [some (4, 16), some (8, 64)]],
    highCorrelations := [("a", "b", 4, 16)] }

/-! ## Helper lemmas -/

theorem DataFrame.find?_eq_none {df : DataFrame} {c : String} (h : c ∉ df.names) :
    df.find? c = none := by
  unfold DataFrame.find?
  rw [Option.map_eq_none', List.find?_eq_none]
  intro p hp hbeq
  exact h (List.mem_map.mpr ⟨p, hp, by simpa using hbeq⟩)

theorem DataFrame.find?_exists {df : DataFrame} {c : String} (h : c ∈ df.names) :
    ∃ cd, df.find? c = some cd := by
  unfold DataFrame.names at h
  obtain ⟨p, hp, rfl⟩ := List.mem_map.mp h
  have h2 : (df.cols.find? (fun q => q.1 == p.1)).isSome := by
    rw [List.find?_isSome]
    exact ⟨p, hp, by simp⟩
  obtain ⟨q, hq⟩ := Option.isSome_iff_exists.mp h2
  refine ⟨q.2, ?_⟩
  unfold DataFrame.find?
  rw [hq, Option.map_some']

theorem numericNames_subset (df : DataFrame) : numericNames df ⊆ df.names := by
  intro c hc
  unfold numericNames numericCols at hc
  obtain ⟨q, hq, rfl⟩ := List.mem_map.mp hc
  obtain ⟨p, hp, hpq⟩ := List.mem_filterMap.mp hq
  have hq1 : q.1 = p.1 := by
    cases h2 : p.2 <;> rw [h2] at hpq
    · simp only [Option.some.injEq] at hpq
      rw [← hpq]
    · simp at hpq
  rw [hq1]
  exact List.mem_map.mpr ⟨p, hp, rfl⟩

theorem sqDevSum_nonneg (l : List ℚ) : 0 ≤ sqDevSum l := by
  unfold sqDevSum
  apply List.sum_nonneg
  intro x hx
  obtain ⟨a, _, rfl⟩ := List.mem_map.mp hx
  positivity

theorem list_sum_const {l : List ℚ} {c : ℚ} (h : ∀ x ∈ l, x = c) :
    l.sum = c * l.length := by
  induction l with
  | nil => simp
  | cons a as ih =>
    rw [List.sum_cons, ih (fun x hx => h x (List.mem_cons_of_mem a hx)),
      h a (List.mem_cons_self a as), List.length_cons]
    push_cast
    ring

theorem listMean_const {l : List ℚ} {c : ℚ} (hne : l ≠ []) (h : ∀ x ∈ l, x = c) :
    listMean l = c := by
  have hl : (l.length : ℚ) ≠ 0 :=
    Nat.cast_ne_zero.mpr (fun h0 => hne (List.length_eq_zero.mp h0))
  unfold listMean
  rw [list_sum_const h]
  field_simp

theorem sqDevSum_pos_of_nonzeroVariance {l : List ℚ} (h : nonzeroVariance l) :
    0 < sqDevSum l := by
  obtain ⟨x, hx, y, hy, hxy⟩ := h
  have key : ∃ z ∈ l, z ≠ listMean l := by
    by_cases hxm : x = listMean l
    · exact ⟨y, hy, fun hym => hxy (hxm.trans hym.symm)⟩
    · exact ⟨x, hx, hxm⟩
  obtain ⟨z, hz, hzm⟩ := key
  have hmem : (z - listMean l) ^ 2 ∈ l.map (fun x => (x - listMean l) ^ 2) :=
    List.mem_map.mpr ⟨z, hz, rfl⟩
  have hterm : 0 < (z - listMean l) ^ 2 := by
    have hne := sub_ne_zero.mpr hzm
    exact lt_of_le_of_ne (sq_nonneg _) (Ne.symm (pow_ne_zero 2 hne))
  have hle : (z - listMean l) ^ 2 ≤ sqDevSum l := by
    unfold sqDevSum
    refine List.single_le_sum ?_ _ hmem
    intro t ht
    obtain ⟨a, _, rfl⟩ := List.mem_map.mp ht
    positivity
  linarith

theorem nonzeroVariance_two_le_length {l : List ℚ} (h : nonzeroVariance l) :
    2 ≤ l.length := by
  obtain ⟨x, hx, y, hy, hxy⟩ := h
  rcases l with _ | ⟨a, _ | ⟨b, t⟩⟩
  · simp at hx
  · simp only [List.mem_singleton] at hx hy
    exact absurd (hx.trans hy.symm) hxy
  · simp only [List.length_cons]
    omega

theorem sampleVar_some_of_two_le {l : List ℚ} (h : 2 ≤ l.length) :
    sampleVar l = some (sqDevSum l / ((l.length : ℚ) - 1)) := by
  unfold sampleVar
  rw [if_neg (by omega)]

theorem sampleVar_nonneg {l : List ℚ} {v : ℚ} (h : sampleVar l = some v) :
    0 ≤ v := by
  unfold sampleVar at h
  split at h
  · cases h
  · next hlen =>
    obtain rfl : sqDevSum l / ((l.length : ℚ) - 1) = v := by
      injection h
    have h1 : (1 : ℚ) ≤ (l.length : ℚ) := by
      exact_mod_cast Nat.one_le_iff_ne_zero.mpr (by omega)
    exact div_nonneg (sqDevSum_nonneg l) (by linarith)

theorem sampleVar_pos {l : List ℚ} {v : ℚ} (hv : sampleVar l = some v)
    (h : nonzeroVariance l) : 0 < v := by
  unfold sampleVar at hv
  split at hv
  · cases hv
  · next hlen =>
    obtain rfl : sqDevSum l / ((l.length : ℚ) - 1) = v := by
      injection hv
    have h2 : (2 : ℚ) ≤ (l.length : ℚ) := by
      exact_mod_cast nonzeroVariance_two_le_length h
    exact div_pos (sqDevSum_pos_of_nonzeroVariance h) (by linarith)

/-- The z-score outlier test is the exact rendering of
"strictly outside `[mean - 3·std, mean + 3·std]`". -/
theorem zscore_bridge (μ v x : ℚ) (hv : 0 ≤ v) :
    (zscoreOutlier μ (some v) x = true ↔
      ((x : ℝ) < (μ : ℝ) - 3 * Real.sqrt (v : ℝ) ∨
       (μ : ℝ) + 3 * Real.sqrt (v : ℝ) < (x : ℝ))) := by
  unfold zscoreOutlier
  rw [decide_eq_true_eq]
  have hvR : (0 : ℝ) ≤ (v : ℝ) := by exact_mod_cast hv
  have hsq : (3 * Real.sqrt (v : ℝ)) ^ 2 = 9 * (v : ℝ) := by
    rw [mul_pow, Real.sq_sqrt hvR]
    norm_num
  have hs0 : 0 ≤ 3 * Real.sqrt (v : ℝ) := by positivity
  constructor
  · intro h
    have hR : 9 * (v : ℝ) < ((x : ℝ) - (μ : ℝ)) ^ 2 := by exact_mod_cast h
    have h1 : (3 * Real.sqrt (v : ℝ)) ^ 2 < |(x : ℝ) - (μ : ℝ)| ^ 2 := by
      rw [hsq, sq_abs]
      exact hR
    have habs : 3 * Real.sqrt (v : ℝ) < |(x : ℝ) - (μ : ℝ)| :=
      lt_of_pow_lt_pow_left₀ 2 (abs_nonneg _) h1
    rcases lt_abs.mp habs with h4 | h4
    · right; linarith
    · left; linarith
  · intro h
    have habs : 3 * Real.sqrt (v : ℝ) < |(x : ℝ) - (μ : ℝ)| := by
      rw [lt_abs]
      rcases h with h | h
      · right; linarith
      · left; linarith
    have h2 : (3 * Real.sqrt (v : ℝ)) ^ 2 < ((x : ℝ) - (μ : ℝ)) ^ 2 := by
      rw [← sq_abs ((x : ℝ) - (μ : ℝ))]
      exact pow_lt_pow_left₀ habs hs0 (by norm_num)
    rw [hsq] at h2
    exact_mod_cast h2

theorem sorted_getD_mono {s : List ℚ} (hs : s.Sorted (· ≤ ·)) {i j : ℕ}
    (hij : i ≤ j) (hj : j < s.length) : s.getD i 0 ≤ s.getD j 0 := by
  rcases eq_or_lt_of_le hij with rfl | hlt
  · exact le_refl _
  · have hi : i < s.length := lt_trans hlt hj
    rw [List.getD_eq_getElem s 0 hi, List.getD_eq_getElem s 0 hj]
    have := List.pairwise_iff_get.mp hs ⟨i, hi⟩ ⟨j, hj⟩ hlt
    simpa using this

theorem getD_succ_self_le {s : List ℚ} (hs : s.Sorted (· ≤ ·)) (i : ℕ) :
    s.getD i 0 ≤ s.getD (i + 1) (s.getD i 0) := by
  by_cases h : i + 1 < s.length
  · have h2 := sorted_getD_mono hs (Nat.le_succ i) h
    rw [List.getD_eq_getElem s 0 h] at h2
    rw [List.getD_eq_getElem s _ h]
    exact h2
  · rw [show s.getD (i + 1) (s.getD i 0) = s.getD i 0 from
      List.getD_eq_default s _ (by omega)]

theorem interp_index_lt {x : ℚ} {n : ℕ} (hx : 0 ≤ x) (hxn : x ≤ (n : ℚ) - 1) :
    ⌊x⌋.toNat < n := by
  have h0 : (0 : ℤ) ≤ ⌊x⌋ := Int.floor_nonneg.mpr hx
  have hcast : ((n : ℚ) - 1) = (((n : ℤ) - 1 : ℤ) : ℚ) := by push_cast; ring
  have h1 : ⌊x⌋ ≤ (n : ℤ) - 1 := by
    have := Int.floor_mono hxn
    rwa [hcast, Int.floor_intCast] at this
  omega

/-- Linear interpolation along a sorted list is monotone in the position. -/
theorem interpAt_mono {s : List ℚ} (hs : s.Sorted (· ≤ ·)) {x y : ℚ}
    (hx : 0 ≤ x) (hxy : x ≤ y) (hy : y ≤ (s.length : ℚ) - 1) :
    interpAt s x ≤ interpAt s y := by
  have hy0 : 0 ≤ y := le_trans hx hxy
  have hfx : (0 : ℤ) ≤ ⌊x⌋ := Int.floor_nonneg.mpr hx
  have hfy : (0 : ℤ) ≤ ⌊y⌋ := Int.floor_nonneg.mpr hy0
  have hiq : ((⌊x⌋.toNat : ℚ)) ≤ x := by
    have h2 : ((⌊x⌋ : ℤ) : ℚ) ≤ x := Int.floor_le x
    rw [← Int.toNat_of_nonneg hfx] at h2
    exact_mod_cast h2
  have hxi : x < (⌊x⌋.toNat : ℚ) + 1 := by
    have h2 : x < ((⌊x⌋ : ℤ) : ℚ) + 1 := Int.lt_floor_add_one x
    rw [← Int.toNat_of_nonneg hfx] at h2
    exact_mod_cast h2
  have hjq : ((⌊y⌋.toNat : ℚ)) ≤ y := by
    have h2 : ((⌊y⌋ : ℤ) : ℚ) ≤ y := Int.floor_le y
    rw [← Int.toNat_of_nonneg hfy] at h2
    exact_mod_cast h2
  have hij : ⌊x⌋.toNat ≤ ⌊y⌋.toNat := by
    have := Int.floor_mono hxy
    omega
  have hjn : ⌊y⌋.toNat < s.length := interp_index_lt hy0 hy
  show s.getD ⌊x⌋.toNat 0
        + (x - (⌊x⌋.toNat : ℚ))
          * (s.getD (⌊x⌋.toNat + 1) (s.getD ⌊x⌋.toNat 0) - s.getD ⌊x⌋.toNat 0)
      ≤ s.getD ⌊y⌋.toNat 0
        + (y - (⌊y⌋.toNat : ℚ))
          * (s.getD (⌊y⌋.toNat + 1) (s.getD ⌊y⌋.toNat 0) - s.getD ⌊y⌋.toNat 0)
  have hAB := getD_succ_self_le hs ⌊x⌋.toNat
  have hCD := getD_succ_self_le hs ⌊y⌋.toNat
  rcases eq_or_lt_of_le hij with heq | hlt
  · rw [heq]
    have hγ : x - (⌊y⌋.toNat : ℚ) ≤ y - (⌊y⌋.toNat : ℚ) := by linarith
    rw [heq] at hAB
    nlinarith
  · have hi1lt : ⌊x⌋.toNat + 1 < s.length := by omega
    have hBC : s.getD (⌊x⌋.toNat + 1) (s.getD ⌊x⌋.toNat 0) ≤ s.getD ⌊y⌋.toNat 0 := by
      have hB : s.getD (⌊x⌋.toNat + 1) (s.getD ⌊x⌋.toNat 0)
          = s.getD (⌊x⌋.toNat + 1) 0 := by
        rw [List.getD_eq_getElem s _ hi1lt, List.getD_eq_getElem s 0 hi1lt]
      rw [hB]
      exact sorted_getD_mono hs (by omega) hjn
    have hγx1 : x - (⌊x⌋.toNat : ℚ) < 1 := by linarith
    have hγx0 : 0 ≤ x - (⌊x⌋.toNat : ℚ) := by linarith
    have hγy0 : 0 ≤ y - (⌊y⌋.toNat : ℚ) := by linarith
    nlinarith

/-- Quantiles are monotone in the probability. -/
theorem quantile_le_quantile (l : List ℚ) {p q : ℚ} (hp : 0 ≤ p) (hq : q ≤ 1)
    (hpq : p ≤ q) : quantile p l ≤ quantile q l := by
  unfold quantile
  by_cases h0 : (l.insertionSort (· ≤ ·)).length = 0
  · simp [h0]
  · rw [if_neg h0, if_neg h0]
    have hs : (l.insertionSort (· ≤ ·)).Sorted (· ≤ ·) :=
      List.sorted_insertionSort _ l
    have hn : (1 : ℚ) ≤ ((l.insertionSort (· ≤ ·)).length : ℚ) := by
      exact_mod_cast Nat.one_le_iff_ne_zero.mpr h0
    have hn1 : (0 : ℚ) ≤ ((l.insertionSort (· ≤ ·)).length : ℚ) - 1 := by linarith
    apply interpAt_mono hs
    · exact mul_nonneg hp hn1
    · exact mul_le_mul_of_nonneg_right hpq hn1
    · calc q * (((l.insertionSort (· ≤ ·)).length : ℚ) - 1)
          ≤ 1 * (((l.insertionSort (· ≤ ·)).length : ℚ) - 1) :=
            mul_le_mul_of_nonneg_right hq hn1
        _ = ((l.insertionSort (· ≤ ·)).length : ℚ) - 1 := one_mul _

/-! ### Correlation lemmas -/

theorem validPairs_swap (xs ys : List (Option ℚ)) :
    validPairs ys xs = (validPairs xs ys).map Prod.swap := by
  unfold validPairs
  rw [← List.zip_swap xs ys, List.filterMap_map, List.map_filterMap]
  congr 1
  funext p
  rcases p with ⟨_ | a, _ | b⟩ <;> rfl

theorem pearsonNum_swap (as bs : List ℚ) (hlen : as.length = bs.length) :
    pearsonNum bs as = pearsonNum as bs := by
  simp only [pearsonNum]
  have hcond : (bs.length = 0) = (as.length = 0) := by rw [hlen]
  simp only [hcond]
  by_cases hz : as.length = 0
  · rw [if_pos hz, if_pos hz]
  · rw [if_neg hz, if_neg hz]
    have hcov : ((bs.zip as).map
          (fun p => (p.1 - listMean bs) * (p.2 - listMean as))).sum
        = ((as.zip bs).map
          (fun p => (p.1 - listMean as) * (p.2 - listMean bs))).sum := by
      rw [← List.zip_swap as bs, List.map_map]
      congr 1
      apply List.map_congr_left
      intro p _
      simp only [Function.comp_apply, Prod.fst_swap, Prod.snd_swap]
      ring
    rw [hcov, mul_comm (sqDevSum bs) (sqDevSum as)]

theorem corrPearson_symm (xs ys : List (Option ℚ)) :
    corrPearson ys xs = corrPearson xs ys := by
  simp only [corrPearson]
  rw [validPairs_swap xs ys, List.map_map, List.map_map]
  rw [(rfl : (Prod.fst ∘ Prod.swap : ℚ × ℚ → ℚ) = Prod.snd),
      (rfl : (Prod.snd ∘ Prod.swap : ℚ × ℚ → ℚ) = Prod.fst)]
  exact pearsonNum_swap _ _ (by simp)

theorem corrSpearman_symm (xs ys : List (Option ℚ)) :
    corrSpearman ys xs = corrSpearman xs ys := by
  simp only [corrSpearman]
  rw [validPairs_swap xs ys, List.map_map, List.map_map]
  rw [(rfl : (Prod.fst ∘ Prod.swap : ℚ × ℚ → ℚ) = Prod.snd),
      (rfl : (Prod.snd ∘ Prod.swap : ℚ × ℚ → ℚ) = Prod.fst)]
  exact pearsonNum_swap _ _ (by simp [ranksOf])

theorem tailPairs_map {α β : Type} (f : α → β) (l : List α) :
    tailPairs (l.map f) = (tailPairs l).map (fun q => (f q.1, f q.2)) := by
  induction l with
  | nil => rfl
  | cons x xs ih =>
    simp only [List.map_cons, tailPairs, ih, List.map_append, List.map_map]
    congr 1

theorem corrKendall_symm (xs ys : List (Option ℚ)) :
    corrKendall ys xs = corrKendall xs ys := by
  simp only [corrKendall]
  rw [validPairs_swap xs ys, tailPairs_map]
  simp only [List.countP_map, List.length_map]
  have hP : ∀ q ∈ tailPairs (validPairs xs ys),
      (((fun q : (ℚ × ℚ) × (ℚ × ℚ) =>
          decide (0 < (q.1.1 - q.2.1) * (q.1.2 - q.2.2)))
        ∘ (fun q : (ℚ × ℚ) × (ℚ × ℚ) => (q.1.swap, q.2.swap))) q = true
      ↔ (fun q : (ℚ × ℚ) × (ℚ × ℚ) =>
          decide (0 < (q.1.1 - q.2.1) * (q.1.2 - q.2.2))) q = true) := by
    intro q _
    simp only [Function.comp_apply, Prod.fst_swap, Prod.snd_swap,
      decide_eq_true_eq]
    rw [mul_comm]
  have hQ : ∀ q ∈ tailPairs (validPairs xs ys),
      (((fun q : (ℚ × ℚ) × (ℚ × ℚ) =>
          decide ((q.1.1 - q.2.1) * (q.1.2 - q.2.2) < 0))
        ∘ (fun q : (ℚ × ℚ) × (ℚ × ℚ) => (q.1.swap, q.2.swap))) q = true
      ↔ (fun q : (ℚ × ℚ) × (ℚ × ℚ) =>
          decide ((q.1.1 - q.2.1) * (q.1.2 - q.2.2) < 0)) q = true) := by
    intro q _
    simp only [Function.comp_apply, Prod.fst_swap, Prod.snd_swap,
      decide_eq_true_eq]
    rw [mul_comm]
  have hT1 : ∀ q ∈ tailPairs (validPairs xs ys),
      (((fun q : (ℚ × ℚ) × (ℚ × ℚ) => decide (q.1.1 = q.2.1))
        ∘ (fun q : (ℚ × ℚ) × (ℚ × ℚ) => (q.1.swap, q.2.swap))) q = true
      ↔ (fun q : (ℚ × ℚ) × (ℚ × ℚ) => decide (q.1.2 = q.2.2)) q = true) := by
    intro q _
    simp [Function.comp_apply]
  have hT2 : ∀ q ∈ tailPairs (validPairs xs ys),
      (((fun q : (ℚ × ℚ) × (ℚ × ℚ) => decide (q.1.2 = q.2.2))
        ∘ (fun q : (ℚ × ℚ) × (ℚ × ℚ) => (q.1.swap, q.2.swap))) q = true
      ↔ (fun q : (ℚ × ℚ) × (ℚ × ℚ) => decide (q.1.1 = q.2.1)) q = true) := by
    intro q _
    simp [Function.comp_apply]
  rw [List.countP_congr hP, List.countP_congr hQ, List.countP_congr hT1,
    List.countP_congr hT2]
  ring_nf

theorem pearsonNum_d_pos {as bs : List ℚ} {p : ℚ × ℚ}
    (h : pearsonNum as bs = some p) : 0 < p.2 := by
  simp only [pearsonNum] at h
  split at h
  · cases h
  · split at h
    · cases h
    · next hd =>
      obtain rfl : (_, sqDevSum as * sqDevSum bs) = p := by injection h
      exact lt_of_le_of_ne
        (mul_nonneg (sqDevSum_nonneg as) (sqDevSum_nonneg bs)) (Ne.symm hd)

theorem corrPearson_d_pos {xs ys : List (Option ℚ)} {p : ℚ × ℚ}
    (h : corrPearson xs ys = some p) : 0 < p.2 :=
  pearsonNum_d_pos h

theorem corrSpearman_d_pos {xs ys : List (Option ℚ)} {p : ℚ × ℚ}
    (h : corrSpearman xs ys = some p) : 0 < p.2 :=
  pearsonNum_d_pos h

theorem corrKendall_d_pos {xs ys : List (Option ℚ)} {p : ℚ × ℚ}
    (h : corrKendall xs ys = some p) : 0 < p.2 := by
  simp only [corrKendall] at h
  split at h
  · cases h
  · next hd =>
    obtain rfl : (_, ((tailPairs (validPairs xs ys)).length -
          ((tailPairs (validPairs xs ys)).countP fun q => decide (q.1.1 = q.2.1)) :
            ℚ) *
        ((tailPairs (validPairs xs ys)).length -
          ((tailPairs (validPairs xs ys)).countP fun q => decide (q.1.2 = q.2.2)) :
            ℚ)) = p := by injection h
    have h1 : (tailPairs (validPairs xs ys)).countP
        (fun q : (ℚ × ℚ) × (ℚ × ℚ) => decide (q.1.1 = q.2.1))
        ≤ (tailPairs (validPairs xs ys)).length := List.countP_le_length _
    have h2 : (tailPairs (validPairs xs ys)).countP
        (fun q : (ℚ × ℚ) × (ℚ × ℚ) => decide (q.1.2 = q.2.2))
        ≤ (tailPairs (validPairs xs ys)).length := List.countP_le_length _
    have hq1 : (((tailPairs (validPairs xs ys)).countP
        fun q => decide (q.1.1 = q.2.1) : ℕ) : ℚ)
        ≤ ((tailPairs (validPairs xs ys)).length : ℚ) := by exact_mod_cast h1
    have hq2 : (((tailPairs (validPairs xs ys)).countP
        fun q => decide (q.1.2 = q.2.2) : ℕ) : ℚ)
        ≤ ((tailPairs (validPairs xs ys)).length : ℚ) := by exact_mod_cast h2
    exact lt_of_le_of_ne
      (mul_nonneg (by linarith) (by linarith)) (Ne.symm hd)

theorem zip_self_eq_map {α : Type} (l : List α) :
    l.zip l = l.map (fun a => (a, a)) := by
  induction l with
  | nil => rfl
  | cons a as ih => simp [List.zip_cons_cons, ih]

theorem validPairs_self (xs : List (Option ℚ)) :
    validPairs xs xs = (dropNone xs).map (fun a => (a, a)) := by
  unfold validPairs dropNone
  rw [zip_self_eq_map, List.filterMap_map, List.map_filterMap]
  congr 1
  funext x
  cases x <;> rfl

theorem pearsonNum_self {w : List ℚ} (h : nonzeroVariance w) :
    pearsonNum w w = some (sqDevSum w, sqDevSum w * sqDevSum w) := by
  simp only [pearsonNum]
  have hne : ¬ w.length = 0 := by
    have := nonzeroVariance_two_le_length h
    omega
  rw [if_neg hne]
  have hcov : ((w.zip w).map
      (fun p => (p.1 - listMean w) * (p.2 - listMean w))).sum = sqDevSum w := by
    rw [zip_self_eq_map, List.map_map]
    unfold sqDevSum
    congr 1
    apply List.map_congr_left
    intro a _
    simp only [Function.comp_apply]
    ring
  rw [hcov]
  have hpos := sqDevSum_pos_of_nonzeroVariance h
  rw [if_neg (mul_ne_zero (ne_of_gt hpos) (ne_of_gt hpos))]

theorem corrPearson_self {xs : List (Option ℚ)}
    (h : nonzeroVariance (dropNone xs)) :
    corrPearson xs xs = some (sqDevSum (dropNone xs),
      sqDevSum (dropNone xs) * sqDevSum (dropNone xs)) := by
  simp only [corrPearson]
  rw [validPairs_self, List.map_map, List.map_map]
  have hfst : List.map (Prod.fst ∘ fun a : ℚ => (a, a)) (dropNone xs)
      = dropNone xs := by simp [Function.comp_def]
  have hsnd : List.map (Prod.snd ∘ fun a : ℚ => (a, a)) (dropNone xs)
      = dropNone xs := by simp [Function.comp_def]
  rw [hfst, hsnd]
  exact pearsonNum_self h

theorem countLe_split (l : List ℚ) (x : ℚ) :
    l.countP (fun y => decide (y < x)) + l.countP (fun y => decide (y = x))
      = l.countP (fun y => decide (y ≤ x)) := by
  induction l with
  | nil => rfl
  | cons a as ih =>
    simp only [List.countP_cons]
    rcases lt_trichotomy a x with h | h | h
    · rw [if_pos (by simp [h]), if_neg (by simp [h.ne]), if_pos (by simp [h.le])]
      omega
    · subst h
      rw [if_neg (by simp), if_pos (by simp), if_pos (by simp)]
      omega
    · rw [if_neg (by simp [not_lt.mpr h.le]), if_neg (by simp [h.ne']),
        if_neg (by simp [not_le.mpr h])]
      omega

theorem avgRank_lt {l : List ℚ} {x y : ℚ} (hx : x ∈ l) (hxy : x < y) :
    avgRank l x < avgRank l y := by
  unfold avgRank
  have hsub : l.countP (fun z => decide (z ≤ x))
      ≤ l.countP (fun z => decide (z < y)) := by
    apply List.countP_mono_left
    intro a _ ha
    simp only [decide_eq_true_eq] at ha ⊢
    exact lt_of_le_of_lt ha hxy
  rw [← countLe_split] at hsub
  have hex : 0 < l.countP (fun z => decide (z = x)) := by
    rw [List.countP_pos_iff]
    exact ⟨x, hx, by simp⟩
  have hc1 : ((l.countP (fun z => decide (z < x)) : ℚ))
      + (l.countP (fun z => decide (z = x)) : ℚ)
      ≤ (l.countP (fun z => decide (z < y)) : ℚ) := by exact_mod_cast hsub
  have hc2 : (1 : ℚ) ≤ (l.countP (fun z => decide (z = x)) : ℚ) := by
    exact_mod_cast hex
  have hc3 : (0 : ℚ) ≤ (l.countP (fun z => decide (z = y)) : ℚ) := by positivity
  linarith

theorem ranks_nonzeroVariance {w : List ℚ} (h : nonzeroVariance w) :
    nonzeroVariance (ranksOf w) := by
  obtain ⟨x, hx, y, hy, hxy⟩ := h
  rcases lt_or_gt_of_ne hxy with hlt | hgt
  · exact ⟨avgRank w x, List.mem_map.mpr ⟨x, hx, rfl⟩,
      avgRank w y, List.mem_map.mpr ⟨y, hy, rfl⟩, ne_of_lt (avgRank_lt hx hlt)⟩
  · exact ⟨avgRank w x, List.mem_map.mpr ⟨x, hx, rfl⟩,
      avgRank w y, List.mem_map.mpr ⟨y, hy, rfl⟩, ne_of_gt (avgRank_lt hy hgt)⟩

theorem corrSpearman_self {xs : List (Option ℚ)}
    (h : nonzeroVariance (dropNone xs)) :
    corrSpearman xs xs = some (sqDevSum (ranksOf (dropNone xs)),
      sqDevSum (ranksOf (dropNone xs)) * sqDevSum (ranksOf (dropNone xs))) := by
  simp only [corrSpearman]
  rw [validPairs_self, List.map_map, List.map_map]
  have hfst : List.map (Prod.fst ∘ fun a : ℚ => (a, a)) (dropNone xs)
      = dropNone xs := by simp [Function.comp_def]
  have hsnd : List.map (Prod.snd ∘ fun a : ℚ => (a, a)) (dropNone xs)
      = dropNone xs := by simp [Function.comp_def]
  rw [hfst, hsnd]
  exact pearsonNum_self (ranks_nonzeroVariance h)

theorem tailPairs_const {α : Type} {l : List α}
    (h : ∀ q ∈ tailPairs l, q.1 = q.2) : ∀ x ∈ l, ∀ y ∈ l, x = y := by
  induction l with
  | nil => intro x hx; cases hx
  | cons a as ih =>
    intro x hx y hy
    have hsub : ∀ q ∈ tailPairs as, q.1 = q.2 := fun q hq =>
      h q (by
        simp only [tailPairs, List.mem_append]
        exact Or.inr hq)
    have hhead : ∀ z ∈ as, a = z := fun z hz => by
      have := h (a, z) (by
        simp only [tailPairs, List.mem_append, List.mem_map]
        exact Or.inl ⟨z, hz, rfl⟩)
      simpa using this
    rcases List.mem_cons.mp hx with rfl | hx2
    · rcases List.mem_cons.mp hy with rfl | hy2
      · rfl
      · exact hhead y hy2
    · rcases List.mem_cons.mp hy with rfl | hy2
      · exact (hhead x hx2).symm
      · exact ih hsub x hx2 y hy2

theorem tailPairs_exists_ne {l : List ℚ} (h : nonzeroVariance l) :
    ∃ q ∈ tailPairs l, q.1 ≠ q.2 := by
  by_contra hc
  push_neg at hc
  obtain ⟨x, hx, y, hy, hxy⟩ := h
  exact hxy (tailPairs_const hc x hx y hy)

theorem countP_compl {α : Type} (l : List α) (p q : α → Bool)
    (h : ∀ x ∈ l, p x = !(q x)) : l.countP p + l.countP q = l.length := by
  induction l with
  | nil => rfl
  | cons a as ih =>
    simp only [List.countP_cons, List.length_cons]
    have ha := h a (List.mem_cons_self a as)
    have ih2 := ih (fun x hx => h x (List.mem_cons_of_mem a hx))
    cases hq : q a <;> rw [hq] at ha <;> simp [ha, hq] <;> omega

theorem corrKendall_self {xs : List (Option ℚ)}
    (h : nonzeroVariance (dropNone xs)) :
    ∃ S : ℚ, 0 < S ∧ corrKendall xs xs = some (S, S * S) := by
  simp only [corrKendall]
  rw [validPairs_self, tailPairs_map]
  simp only [List.countP_map, List.length_map]
  have hPc : ∀ q ∈ tailPairs (dropNone xs),
      (((fun q : (ℚ × ℚ) × (ℚ × ℚ) =>
          decide (0 < (q.1.1 - q.2.1) * (q.1.2 - q.2.2)))
        ∘ (fun q : ℚ × ℚ => ((q.1, q.1), (q.2, q.2)))) q = true
      ↔ (fun q : ℚ × ℚ => !decide (q.1 = q.2)) q = true) := by
    intro q _
    simp only [Function.comp_apply, decide_eq_true_eq, Bool.not_eq_true',
      decide_eq_false_iff_not]
    constructor
    · intro hq heq
      rw [heq] at hq
      nlinarith
    · intro hne
      exact mul_self_pos.mpr (sub_ne_zero.mpr hne)
  have hQc : ∀ q ∈ tailPairs (dropNone xs),
      (((fun q : (ℚ × ℚ) × (ℚ × ℚ) =>
          decide ((q.1.1 - q.2.1) * (q.1.2 - q.2.2) < 0))
        ∘ (fun q : ℚ × ℚ => ((q.1, q.1), (q.2, q.2)))) q = true
      ↔ (fun _ : ℚ × ℚ => false) q = true) := by
    intro q _
    simp only [Function.comp_apply, decide_eq_true_eq, Bool.false_eq_true,
      iff_false]
    exact not_lt.mpr (mul_self_nonneg _)
  have hT1c : ∀ q ∈ tailPairs (dropNone xs),
      (((fun q : (ℚ × ℚ) × (ℚ × ℚ) => decide (q.1.1 = q.2.1))
        ∘ (fun q : ℚ × ℚ => ((q.1, q.1), (q.2, q.2)))) q = true
      ↔ (fun q : ℚ × ℚ => decide (q.1 = q.2)) q = true) := by
    intro q _
    simp [Function.comp_apply]
  have hT2c : ∀ q ∈ tailPairs (dropNone xs),
      (((fun q : (ℚ × ℚ) × (ℚ × ℚ) => decide (q.1.2 = q.2.2))
        ∘ (fun q : ℚ × ℚ => ((q.1, q.1), (q.2, q.2)))) q = true
      ↔ (fun q : ℚ × ℚ => decide (q.1 = q.2)) q = true) := by
    intro q _
    simp [Function.comp_apply]
  rw [List.countP_congr hPc, List.countP_congr hQc, List.countP_congr hT1c,
    List.countP_congr hT2c]
  have hcompl : (tailPairs (dropNone xs)).countP
        (fun q : ℚ × ℚ => !decide (q.1 = q.2))
      + (tailPairs (dropNone xs)).countP (fun q : ℚ × ℚ => decide (q.1 = q.2))
      = (tailPairs (dropNone xs)).length :=
    countP_compl _ _ _ (fun x _ => rfl)
  have hcQ : (tailPairs (dropNone xs)).countP (fun _ : ℚ × ℚ => false) = 0 :=
    List.countP_eq_zero.mpr (by simp)
  have hpos : 0 < (tailPairs (dropNone xs)).countP
      (fun q : ℚ × ℚ => !decide (q.1 = q.2)) := by
    rw [List.countP_pos_iff]
    obtain ⟨q, hq, hne⟩ := tailPairs_exists_ne h
    exact ⟨q, hq, by simp [hne]⟩
  have hd1 : ((tailPairs (dropNone xs)).length : ℚ)
      - ((tailPairs (dropNone xs)).countP
          (fun q : ℚ × ℚ => decide (q.1 = q.2)) : ℚ)
      = ((tailPairs (dropNone xs)).countP
          (fun q : ℚ × ℚ => !decide (q.1 = q.2)) : ℚ) := by
    have hc : ((tailPairs (dropNone xs)).countP
          (fun q : ℚ × ℚ => !decide (q.1 = q.2)) : ℚ)
        + ((tailPairs (dropNone xs)).countP
            (fun q : ℚ × ℚ => decide (q.1 = q.2)) : ℚ)
        = ((tailPairs (dropNone xs)).length : ℚ) := by exact_mod_cast hcompl
    linarith
  rw [hcQ, hd1]
  have hposQ : (0 : ℚ) < ((tailPairs (dropNone xs)).countP
      (fun q : ℚ × ℚ => !decide (q.1 = q.2)) : ℚ) := by exact_mod_cast hpos
  refine ⟨((tailPairs (dropNone xs)).countP
      (fun q : ℚ × ℚ => !decide (q.1 = q.2)) : ℚ), hposQ, ?_⟩
  rw [if_neg (mul_ne_zero (ne_of_gt hposQ) (ne_of_gt hposQ))]
  norm_num

theorem corrFnFor_cases {method : String}
    {f : List (Option ℚ) → List (Option ℚ) → Option (ℚ × ℚ)}
    (h : corrFnFor method = some f) :
    f = corrPearson ∨ f = corrSpearman ∨ f = corrKendall := by
  unfold corrFnFor at h
  split_ifs at h
  · exact Or.inl (Option.some.inj h).symm
  · exact Or.inr (Or.inl (Option.some.inj h).symm)
  · exact Or.inr (Or.inr (Option.some.inj h).symm)

theorem corrFn_symm {f : List (Option ℚ) → List (Option ℚ) → Option (ℚ × ℚ)}
    (hf : f = corrPearson ∨ f = corrSpearman ∨ f = corrKendall)
    (xs ys : List (Option ℚ)) : f ys xs = f xs ys := by
  rcases hf with rfl | rfl | rfl
  · exact corrPearson_symm xs ys
  · exact corrSpearman_symm xs ys
  · exact corrKendall_symm xs ys

theorem corrFn_d_pos {f : List (Option ℚ) → List (Option ℚ) → Option (ℚ × ℚ)}
    (hf : f = corrPearson ∨ f = corrSpearman ∨ f = corrKendall)
    {xs ys : List (Option ℚ)} {p : ℚ × ℚ} (h : f xs ys = some p) : 0 < p.2 := by
  rcases hf with rfl | rfl | rfl
  · exact corrPearson_d_pos h
  · exact corrSpearman_d_pos h
  · exact corrKendall_d_pos h

theorem corrFn_self {f : List (Option ℚ) → List (Option ℚ) → Option (ℚ × ℚ)}
    (hf : f = corrPearson ∨ f = corrSpearman ∨ f = corrKendall)
    {xs : List (Option ℚ)} (h : nonzeroVariance (dropNone xs)) :
    ∃ S : ℚ, 0 < S ∧ f xs xs = some (S, S * S) := by
  rcases hf with rfl | rfl | rfl
  · exact ⟨_, sqDevSum_pos_of_nonzeroVariance h, corrPearson_self h⟩
  · exact ⟨_, sqDevSum_pos_of_nonzeroVariance (ranks_nonzeroVariance h),
      corrSpearman_self h⟩
  · exact corrKendall_self h

theorem corrReal_diag {S : ℚ} (hS : 0 < S) : corrReal (S, S * S) = 1 := by
  simp only [corrReal]
  have hcast : ((S * S : ℚ) : ℝ) = (S : ℝ) * (S : ℝ) := by push_cast; ring
  rw [hcast, Real.sqrt_mul_self (by positivity)]
  have hne : (S : ℝ) ≠ 0 := by positivity
  field_simp

theorem highTest_iff_real {p : ℚ × ℚ} (hd : 0 < p.2) :
    (49 * p.2 < 100 * p.1 ^ 2) ↔ 7/10 < |corrReal p| := by
  simp only [corrReal]
  have hdR : (0 : ℝ) < (p.2 : ℝ) := by exact_mod_cast hd
  have hsq : 0 < Real.sqrt (p.2 : ℝ) := Real.sqrt_pos.mpr hdR
  rw [abs_div, abs_of_pos hsq, lt_div_iff₀ hsq]
  constructor
  · intro h
    have hR : 49 * (p.2 : ℝ) < 100 * (p.1 : ℝ) ^ 2 := by exact_mod_cast h
    have h1 : (7/10 * Real.sqrt (p.2 : ℝ)) ^ 2 < |(p.1 : ℝ)| ^ 2 := by
      rw [mul_pow, Real.sq_sqrt hdR.le, sq_abs]
      nlinarith
    exact lt_of_pow_lt_pow_left₀ 2 (abs_nonneg _) h1
  · intro h
    have h1 : (7/10 * Real.sqrt (p.2 : ℝ)) ^ 2 < |(p.1 : ℝ)| ^ 2 :=
      pow_lt_pow_left₀ h (by positivity) (by norm_num)
    rw [mul_pow, Real.sq_sqrt hdR.le, sq_abs] at h1
    have h2 : 49 * (p.2 : ℝ) < 100 * (p.1 : ℝ) ^ 2 := by nlinarith
    exact_mod_cast h2

theorem corrMatrix_row
    (f : List (Option ℚ) → List (Option ℚ) → Option (ℚ × ℚ))
    (ncols : List (String × List (Option ℚ))) {i : ℕ}
    (hi : i < ncols.length) :
    (corrMatrix f ncols).getD i []
      = ncols.map (fun b => f ((ncols.getD i ("", [])).2) b.2) := by
  unfold corrMatrix
  rw [List.getD_eq_getElem _ _ (by simpa using hi), List.getElem_map,
    List.getD_eq_getElem _ _ hi]

theorem corrMatrix_entry
    (f : List (Option ℚ) → List (Option ℚ) → Option (ℚ × ℚ))
    (ncols : List (String × List (Option ℚ))) {i j : ℕ}
    (hi : i < ncols.length) (hj : j < ncols.length) :
    matrixEntry (corrMatrix f ncols) i j
      = f ((ncols.getD i ("", [])).2) ((ncols.getD j ("", [])).2) := by
  unfold matrixEntry
  rw [corrMatrix_row f ncols hi, List.getD_eq_getElem _ _ (by simpa using hj),
    List.getElem_map, List.getD_eq_getElem _ _ hj]

theorem corrMatrix_entry_none
    (f : List (Option ℚ) → List (Option ℚ) → Option (ℚ × ℚ))
    (ncols : List (String × List (Option ℚ))) {i j : ℕ}
    (h : ncols.length ≤ i ∨ ncols.length ≤ j) :
    matrixEntry (corrMatrix f ncols) i j = none := by
  unfold matrixEntry
  rcases h with h | h
  · have hrow : (corrMatrix f ncols).getD i [] = [] := by
      unfold corrMatrix
      exact List.getD_eq_default _ _ (by simpa using h)
    rw [hrow]
    rfl
  · by_cases hi : i < ncols.length
    · rw [corrMatrix_row f ncols hi]
      exact List.getD_eq_default _ _ (by simpa using h)
    · have hrow : (corrMatrix f ncols).getD i [] = [] := by
        unfold corrMatrix
        exact List.getD_eq_default _ _ (by simpa using Nat.le_of_not_lt hi)
      rw [hrow]
      rfl

theorem nodup_getD_inj {names : List String} (h : names.Nodup) {i j : ℕ}
    (hi : i < names.length) (hj : j < names.length)
    (heq : names.getD i "" = names.getD j "") : i = j := by
  rw [List.getD_eq_getElem _ _ hi, List.getD_eq_getElem _ _ hj] at heq
  have hiff : names.get ⟨i, hi⟩ = names.get ⟨j, hj⟩ ↔
      (⟨i, hi⟩ : Fin names.length) = (⟨j, hj⟩ : Fin names.length) :=
    List.Nodup.get_inj_iff h
  have h2 := hiff.mp (by simpa using heq)
  simpa using congrArg Fin.val h2

theorem highBody_some {names : List String}
    {m : List (List (Option (ℚ × ℚ)))} {ij : ℕ × ℕ}
    {t : String × String × ℚ × ℚ} (h : highBody names m ij = some t) :
    ij.1 < ij.2 ∧ matrixEntry m ij.1 ij.2 = some t.2.2 ∧
      49 * t.2.2.2 < 100 * t.2.2.1 ^ 2 ∧
      t.1 = names.getD ij.1 "" ∧ t.2.1 = names.getD ij.2 "" := by
  unfold highBody at h
  by_cases hij : ij.1 < ij.2
  · rw [if_pos hij] at h
    cases hent : matrixEntry m ij.1 ij.2 with
    | none =>
      simp only [hent] at h
      exact Option.noConfusion h
    | some p =>
      simp only [hent] at h
      by_cases htest : 49 * p.2 < 100 * p.1 ^ 2
      · rw [if_pos htest] at h
        obtain rfl : (names.getD ij.1 "", names.getD ij.2 "", p) = t :=
          Option.some.inj h
        exact ⟨hij, rfl, htest, rfl, rfl⟩
      · rw [if_neg htest] at h
        cases h
  · rw [if_neg hij] at h
    cases h

theorem highBody_eq_some {names : List String}
    {m : List (List (Option (ℚ × ℚ)))} {i j : ℕ} {p : ℚ × ℚ}
    (hij : i < j) (hent : matrixEntry m i j = some p)
    (htest : 49 * p.2 < 100 * p.1 ^ 2) :
    highBody names m (i, j) = some (names.getD i "", names.getD j "", p) := by
  unfold highBody
  simp only [if_pos hij, hent]
  rw [if_pos htest]

theorem highPairs_mem {names : List String}
    {m : List (List (Option (ℚ × ℚ)))} {c1 c2 : String} {p : ℚ × ℚ} :
    (c1, c2, p) ∈ highPairs names m ↔
      ∃ i j, i < j ∧ i < names.length ∧ j < names.length ∧
        names.getD i "" = c1 ∧ names.getD j "" = c2 ∧
        matrixEntry m i j = some p ∧ 49 * p.2 < 100 * p.1 ^ 2 := by
  unfold highPairs
  rw [List.mem_filterMap]
  constructor
  · rintro ⟨⟨i, j⟩, hmem, hbody⟩
    rw [List.pair_mem_product, List.mem_range, List.mem_range] at hmem
    obtain ⟨h1, h2, h3, h4, h5⟩ := highBody_some hbody
    exact ⟨i, j, h1, hmem.1, hmem.2, h4.symm, h5.symm, h2, h3⟩
  · rintro ⟨i, j, hij, hi, hj, hc1, hc2, hent, htest⟩
    refine ⟨(i, j), ?_, ?_⟩
    · rw [List.pair_mem_product, List.mem_range, List.mem_range]
      exact ⟨hi, hj⟩
    · rw [highBody_eq_some hij hent htest, hc1, hc2]

theorem highPairs_nodup {names : List String}
    {m : List (List (Option (ℚ × ℚ)))} (hnames : names.Nodup)
    (hmn : ∀ i j : ℕ, names.length ≤ i ∨ names.length ≤ j →
      matrixEntry m i j = none) :
    ((highPairs names m).map (fun t => (t.1, t.2.1))).Nodup := by
  unfold highPairs
  rw [List.map_filterMap]
  refine List.Nodup.filterMap ?_
    ((List.nodup_range _).product (List.nodup_range _))
  rintro ⟨i, j⟩ ⟨i', j'⟩ b hb hb'
  rw [Option.mem_def, Option.map_eq_some'] at hb hb'
  obtain ⟨t, ht, hbt⟩ := hb
  obtain ⟨t', ht', hbt'⟩ := hb'
  obtain ⟨hij, hent, hts3, h4, h5⟩ := highBody_some ht
  obtain ⟨hij', hent', hts3', h4', h5'⟩ := highBody_some ht'
  have hbound : i < names.length ∧ j < names.length := by
    by_contra hc
    rw [not_and_or] at hc
    have hnone : matrixEntry m i j = none := hmn i j (by omega)
    rw [hnone] at hent
    cases hent
  have hbound' : i' < names.length ∧ j' < names.length := by
    by_contra hc
    rw [not_and_or] at hc
    have hnone : matrixEntry m i' j' = none := hmn i' j' (by omega)
    rw [hnone] at hent'
    cases hent'
  have hbb : ((t.1, t.2.1) : String × String) = (t'.1, t'.2.1) := by
    rw [hbt, ← hbt']
  have ht1 : t.1 = t'.1 := congrArg (fun z : String × String => z.1) hbb
  have ht2 : t.2.1 = t'.2.1 := congrArg (fun z : String × String => z.2) hbb
  have hii : i = i' := nodup_getD_inj hnames hbound.1 hbound'.1
    (by rw [← h4, ← h4']; exact ht1)
  have hjj : j = j' := nodup_getD_inj hnames hbound.2 hbound'.2
    (by rw [← h5, ← h5']; exact ht2)
  rw [hii, hjj]

/-! ## Claims -/

/-- **C5**: every statistics, correlation, or chart operation invoked while
no dataset is loaded (`current_data is None`) returns the failure envelope
with the error `No data loaded`; the embedded operations are total
functions into the envelope type, so no fault escapes. -/
theorem c5_no_data_always_fails (cols : Option (List String)) (method : String)
    (x y column vals nms color size : Option String) (title orient : String)
    (bins : ℕ) (dcolumns : List String) (pcols : Option (List String)) :
    get_statistics none cols = .error "No data loaded" ∧
    get_correlations none method = .error "No data loaded" ∧
    bar_chart none x y title color orient = .error "No data loaded" ∧
    line_chart none x y title color = .error "No data loaded" ∧
    scatter_plot none x y title color size = .error "No data loaded" ∧
    histogram none column title bins color = .error "No data loaded" ∧
    box_plot none y x title = .error "No data loaded" ∧
    heatmap none title = .error "No data loaded" ∧
    pie_chart none vals nms title = .error "No data loaded" ∧
    distribution_plot none dcolumns title = .error "No data loaded" ∧
    pair_plot none pcols color = .error "No data loaded" :=
  ⟨rfl, rfl, rfl, rfl, rfl, rfl, rfl, rfl, rfl, rfl, rfl⟩

/-- **C7**: both connectors' `connect` validates the presence of the
account/host and user fields first and, when either is missing (empty),
returns the descriptive failure envelope — the network-attempt branch is
never reached. -/
theorem c7_connect_validates_before_network (sf : SnowflakeConfig)
    (ss : SQLServerConfig) (h1 : sf.account = "" ∨ sf.user = "")
    (h2 : ss.host = "" ∨ ss.user = "") :
    snowflake_connect sf =
      .failFast "Missing required Snowflake configuration (account, user)"
        "Please provide Snowflake connection details" ∧
    sqlserver_connect ss =
      .failFast "Missing required SQL Server configuration (host, user)"
        "Please provide SQL Server connection details" := by
  constructor
  · unfold snowflake_connect
    rcases h1 with h | h <;> simp [h]
  · unfold sqlserver_connect
    rcases h2 with h | h <;> simp [h]

theorem c7_witness :
    ((({ user := "alice" } : SnowflakeConfig).account = "" ∨
      ({ user := "alice" } : SnowflakeConfig).user = "") ∧
     (({ user := "bob" } : SQLServerConfig).host = "" ∨
      ({ user := "bob" } : SQLServerConfig).user = "")) ∧
    (snowflake_connect { user := "alice" } =
      .failFast "Missing required Snowflake configuration (account, user)"
        "Please provide Snowflake connection details" ∧
     sqlserver_connect { user := "bob" } =
      .failFast "Missing required SQL Server configuration (host, user)"
        "Please provide SQL Server connection details") :=
  ⟨⟨Or.inl rfl, Or.inl rfl⟩,
    c7_connect_validates_before_network { user := "alice" } { user := "bob" }
      (Or.inl rfl) (Or.inl rfl)⟩

/-- The sum of the success and failure counters of the multi-PDF loop is
the number of processed files. -/
theorem loadLoop_counts (fs : FileSystem) :
    ∀ (paths : List String) (st : PDFState),
      (loadLoop fs st paths).2.2.1 + (loadLoop fs st paths).2.2.2 = paths.length := by
  intro paths
  induction paths with
  | nil => intro st; simp [loadLoop]
  | cons p ps ih =>
    intro st
    unfold loadLoop
    cases h : (load_pdf fs st p).2 <;>
      simp only [h] <;> rw [List.length_cons, ← ih (load_pdf fs st p).1] <;> omega

/-- **C10**: `load_multiple_pdfs` reports `successful + failed = total =
|input|`, and the aggregate `success` flag is true exactly when every file
loaded (`failed == 0`); in particular a single failure makes the aggregate
a failure. -/
theorem c10_load_multiple_counts (fs : FileSystem) (st : PDFState)
    (paths : List String) :
    (load_multiple_pdfs fs st paths).2.successful
        + (load_multiple_pdfs fs st paths).2.failed
      = (load_multiple_pdfs fs st paths).2.total ∧
    (load_multiple_pdfs fs st paths).2.total = paths.length ∧
    ((load_multiple_pdfs fs st paths).2.success = true ↔
      (load_multiple_pdfs fs st paths).2.failed = 0) ∧
    (0 < (load_multiple_pdfs fs st paths).2.failed →
      (load_multiple_pdfs fs st paths).2.success = false) := by
  have hc := loadLoop_counts fs paths st
  simp only [load_multiple_pdfs]
  refine ⟨hc, trivial, by simp, fun h => ?_⟩
  simp only [beq_eq_false_iff_ne, ne_eq]
  omega

/-- **C8**: the upload route rejects a disallowed extension (and an empty
filename) before the file is written to disk, and a successfully parsed
CSV of `N` rows and `M` columns is answered with `rows = N`, a column
list of length `M`, and a preview of at most 100 records. -/
theorem c8_upload_validation_and_response (badName goodName secured : String)
    (parsedBad : Except String DataFrame) (prior : Option DataFrame)
    (df : DataFrame)
    (hbad : allowed_file badName ["csv", "xlsx", "xls", "json"] = false)
    (hbadNE : badName ≠ "")
    (hgood : allowed_file goodName ["csv", "xlsx", "xls", "json"] = true)
    (hgoodNE : goodName ≠ "")
    (hdisp : endsWith secured ".csv" = true) :
    data_upload true badName secured prior parsedBad =
      .rejectedBeforeSave "Only CSV, Excel, and JSON files are allowed" ∧
    (∀ s pr p, data_upload true "" s pr p = .rejectedBeforeSave "No file selected") ∧
    data_upload true goodName secured prior (.ok df) =
      .loaded { rows := df.nRows, columns := df.names,
                preview := df.headRecords 100 } ∧
    df.names.length = df.cols.length ∧
    (df.headRecords 100).length = min 100 df.nRows ∧
    (df.headRecords 100).length ≤ 100 := by
  refine ⟨?_, ?_, ?_, ?_, ?_, ?_⟩
  · unfold data_upload
    simp [hbad, hbadNE]
  · intro s pr p
    unfold data_upload
    simp
  · unfold data_upload
    simp [hgood, hgoodNE, hdisp]
  · unfold DataFrame.names
    exact List.length_map _ _
  · unfold DataFrame.headRecords
    simp
  · unfold DataFrame.headRecords
    simp [Nat.min_le_left]

theorem c8_witness :
    (allowed_file "malware.exe" ["csv", "xlsx", "xls", "json"] = false ∧
     "malware.exe" ≠ "" ∧
     allowed_file "data.csv" ["csv", "xlsx", "xls", "json"] = true ∧
     "data.csv" ≠ "" ∧
     endsWith "data.csv" ".csv" = true) ∧
    (data_upload true "malware.exe" "malware.exe" none (.ok exDF) =
       .rejectedBeforeSave "Only CSV, Excel, and JSON files are allowed" ∧
     (∀ s pr p, data_upload true "" s pr p = .rejectedBeforeSave "No file selected") ∧
     data_upload true "data.csv" "data.csv" none (.ok exDF) =
       .loaded { rows := exDF.nRows, columns := exDF.names,
                 preview := exDF.headRecords 100 } ∧
     exDF.names.length = exDF.cols.length ∧
     (exDF.headRecords 100).length = min 100 exDF.nRows ∧
     (exDF.headRecords 100).length ≤ 100) :=
  ⟨⟨by decide, by decide, by decide, by decide, by decide⟩,
    c8_upload_validation_and_response "malware.exe" "data.csv" "data.csv"
      (.ok exDF) none exDF
      (by decide) (by decide) (by decide) (by decide) (by decide)⟩

/-- **C8 (counterexample)**: the filename `"DATA.CSV"` passes `allowed_file`
(the validation lowercases the extension) and `secure_filename` preserves
its case, so the file is saved — but every case-sensitive `endswith`
dispatch test fails, so no `pd.read_*` runs. With no prior dataset the
route answers with the caught `len(None)` `TypeError` envelope; with a
stale prior dataset it answers `success` with the stale frame's shape
(here 4 rows) — never with the uploaded 3-row CSV's `rows == 3` that the
claim requires. -/
theorem c8_counterexample :
    allowed_file "DATA.CSV" ["csv", "xlsx", "xls", "json"] = true ∧
    exDF.nRows = 3 ∧
    data_upload true "DATA.CSV" "DATA.CSV" none (.ok exDF) =
      .loadFailed "object of type 'NoneType' has no len()" ∧
    data_upload true "DATA.CSV" "DATA.CSV" (some exDF4) (.ok exDF) =
      .loaded { rows := exDF4.nRows, columns := exDF4.names,
                preview := exDF4.headRecords 100 } ∧
    exDF4.nRows = 4 := by
  refine ⟨by decide, by decide, ?_, ?_, by decide⟩
  · unfold data_upload
    decide
  · unfold data_upload
    decide

/-- **C9**: a `pair_plot` call never plots more than 6 dimensions: the
dimensions handed to the scatter-matrix renderer are exactly the selected
columns when at most 6 are selected, and the first 6 of them otherwise. -/
theorem c9_pair_plot_caps_dimensions (df : DataFrame)
    (columns : Option (List String)) (color : Option String)
    (dims : List String) (sel : List String)
    (hsel : pairPlotSelection df columns = .ok sel)
    (hok : pair_plot (some df) columns color = .ok (.pairPlot dims color)) :
    dims.length ≤ 6 ∧
    (6 < sel.length → dims = sel.take 6) ∧
    (sel.length ≤ 6 → dims = sel) := by
  simp only [pair_plot, hsel] at hok
  injection hok with h1
  injection h1 with hdims hcolor
  subst hdims
  by_cases h6 : sel.length > 6
  · rw [if_pos h6]
    refine ⟨?_, fun _ => rfl, fun hle => absurd h6 (by omega)⟩
    rw [List.length_take]
    omega
  · rw [if_neg h6]
    exact ⟨by omega, fun hgt => absurd hgt h6, fun _ => rfl⟩

theorem c9_witness :
    (pairPlotSelection exDF8 none =
      .ok ["c1", "c2", "c3", "c4", "c5", "c6", "c7", "c8"] ∧
     pair_plot (some exDF8) none none =
      .ok (.pairPlot ["c1", "c2", "c3", "c4", "c5", "c6"] none)) ∧
    (["c1", "c2", "c3", "c4", "c5", "c6"] : List String).length ≤ 6 ∧
    (6 < (["c1", "c2", "c3", "c4", "c5", "c6", "c7", "c8"] : List String).length →
      ["c1", "c2", "c3", "c4", "c5", "c6"] =
        (["c1", "c2", "c3", "c4", "c5", "c6", "c7", "c8"] : List String).take 6) ∧
    ((["c1", "c2", "c3", "c4", "c5", "c6", "c7", "c8"] : List String).length ≤ 6 →
      ["c1", "c2", "c3", "c4", "c5", "c6"] =
        ["c1", "c2", "c3", "c4", "c5", "c6", "c7", "c8"]) :=
  ⟨⟨by decide, by decide⟩,
    c9_pair_plot_caps_dimensions exDF8 none none
      ["c1", "c2", "c3", "c4", "c5", "c6"]
      ["c1", "c2", "c3", "c4", "c5", "c6", "c7", "c8"]
      (by decide) (by decide)⟩

/-- **C4 (counterexample)**: `get_statistics` with an explicit column list
containing the absent name `zz` succeeds (analysing the remaining column)
instead of failing with a column-not-found error. -/
theorem c4_counterexample :
    "zz" ∉ exDF.names ∧
    get_statistics (some exDF) (some ["zz", "a"]) =
      .ok { columnsAnalyzed := ["a"],
            statistics := [("a",
              { count := 3, mean := some 2, min := some 1, max := some 3,
                median := some 2, q25 := some (3/2), q75 := some (5/2) })] } := by
  refine ⟨by decide, ?_⟩
  have hne : (("zz" : String) = "a") = False := eq_false (by decide)
  norm_num [get_statistics, exDF, numericNames, numericCols, DataFrame.find?,
    List.find?, colStatsOf, dropNone, listMean, listMin, listMax, quantile, interpAt,
    List.insertionSort, List.orderedInsert, Int.toNat_ofNat, List.filter_cons,
    List.filter_nil, List.map_cons, List.map_nil, List.filterMap_cons, hne,
    beq_self_eq_true]
  simp

/-- **C4 (amended)**: the operations taking a single column name
(`get_value_counts`, `detect_outliers`) fail with a column-not-found error
when the name is absent; `get_statistics` with an explicit non-empty column
list silently drops — anywhere in the list — every requested name that is
not a numeric column of the frame (absent names and non-numeric names
alike), and fails, only with `No numeric columns found`, exactly when no
requested name is a numeric column; otherwise it succeeds, analysing
exactly the remaining names. -/
theorem c4_column_not_found_amended (df : DataFrame) (col x : String)
    (topN : ℕ) (method : String) (pre post cs : List String)
    (h : col ∉ df.names) (hx : x ∉ numericNames df) (hcs : cs ≠ []) :
    get_value_counts (some df) col topN = .error ("Column not found: " ++ col) ∧
    detect_outliers (some df) col method = .error ("Column not found: " ++ col) ∧
    (pre ++ post ≠ [] →
      get_statistics (some df) (some (pre ++ x :: post))
        = get_statistics (some df) (some (pre ++ post))) ∧
    (cs.filter (fun c => (numericNames df).contains c) = [] →
      get_statistics (some df) (some cs) = .error "No numeric columns found") ∧
    (cs.filter (fun c => (numericNames df).contains c) ≠ [] →
      ∃ r : StatsResult,
        get_statistics (some df) (some cs) = .ok r ∧
        r.columnsAnalyzed = cs.filter (fun c => (numericNames df).contains c)) := by
  have hf := DataFrame.find?_eq_none h
  have hxc : (numericNames df).contains x = false := by
    simpa using hx
  have hcsE : cs.isEmpty = false := by
    cases cs with
    | nil => exact absurd rfl hcs
    | cons a as => rfl
  refine ⟨?_, ?_, ?_, ?_, ?_⟩
  · simp [get_value_counts, hf]
  · simp [detect_outliers, hf]
  · intro hne
    have h1 : (pre ++ x :: post).isEmpty = false := by simp
    have h2 : (pre ++ post).isEmpty = false := by
      cases hpp : pre ++ post with
      | nil => exact absurd hpp hne
      | cons a as => rfl
    simp only [get_statistics, h1, h2, Bool.false_eq_true, if_false,
      List.filter_append, List.filter_cons, hxc]
  · intro hempty
    simp only [get_statistics, hcsE, Bool.false_eq_true, if_false, hempty]
    rfl
  · intro hnonempty
    have hE : (cs.filter (fun c => (numericNames df).contains c)).isEmpty = false := by
      cases hq : cs.filter (fun c => (numericNames df).contains c) with
      | nil => exact absurd hq hnonempty
      | cons a as => rfl
    refine ⟨{ columnsAnalyzed := cs.filter (fun c => (numericNames df).contains c),
              statistics := (cs.filter (fun c => (numericNames df).contains c)).map
                (fun c => (c, colStatsOf (match df.find? c with
                                          | some (.numeric vs) => vs
                                          | _ => []))) }, ?_, rfl⟩
    simp only [get_statistics, hcsE, Bool.false_eq_true, if_false, hE]

theorem c4_witness :
    ("zz" ∉ exDF2.names ∧ "t" ∉ numericNames exDF2 ∧
     (["zz"] : List String) ≠ []) ∧
    (get_value_counts (some exDF2) "zz" 5 = .error ("Column not found: " ++ "zz") ∧
     detect_outliers (some exDF2) "zz" "iqr" = .error ("Column not found: " ++ "zz") ∧
     (["a"] ++ ["b"] ≠ ([] : List String) →
       get_statistics (some exDF2) (some (["a"] ++ "t" :: ["b"]))
         = get_statistics (some exDF2) (some (["a"] ++ ["b"]))) ∧
     ((["zz"] : List String).filter
         (fun c => (numericNames exDF2).contains c) = [] →
       get_statistics (some exDF2) (some ["zz"])
         = .error "No numeric columns found") ∧
     ((["zz"] : List String).filter
         (fun c => (numericNames exDF2).contains c) ≠ [] →
       ∃ r : StatsResult,
         get_statistics (some exDF2) (some ["zz"]) = .ok r ∧
         r.columnsAnalyzed = (["zz"] : List String).filter
           (fun c => (numericNames exDF2).contains c))) :=
  ⟨⟨by decide, by decide, by decide⟩,
    c4_column_not_found_amended exDF2 "zz" "t" 5 "iqr" ["a"] ["b"] ["zz"]
      (by decide) (by decide) (by decide)⟩

/-- **C6**: dispatching on a string outside the action table (EDA actions;
chart types of the chart-creation route) or an unknown outlier-detection
method returns the failure envelope whose error message names the unknown
value; the embedded dispatchers are total, so nothing escapes. -/
theorem c6_unknown_dispatch_names_value (cur : Option DataFrame) (action : String)
    (args : EDAArgs) (df : DataFrame) (col method : String) (req : ChartReq)
    (t : String)
    (ha : action ∉ ["load", "info", "statistics", "correlations", "value_counts",
      "outliers", "quality", "full_report"])
    (hcol : col ∈ df.names)
    (hm : method ∉ ["iqr", "zscore"])
    (ht : t ∉ ["bar", "line", "scatter", "histogram", "box", "heatmap", "pie",
      "distribution", "pair_plot"]) :
    (eda_run cur action args).2 = .error ("Unknown action: " ++ action) ∧
    detect_outliers (some df) col method = .error ("Unknown method: " ++ method) ∧
    chart_create cur (some t) req = .error ("Unknown chart type: " ++ t) := by
  simp only [List.mem_cons, List.not_mem_nil, not_or, or_false] at ha hm ht
  obtain ⟨ha1, ha2, ha3, ha4, ha5, ha6, ha7, ha8⟩ := ha
  obtain ⟨hm1, hm2⟩ := hm
  obtain ⟨ht1, ht2, ht3, ht4, ht5, ht6, ht7, ht8, ht9⟩ := ht
  refine ⟨?_, ?_, ?_⟩
  · simp [eda_run, ha1, ha2, ha3, ha4, ha5, ha6, ha7, ha8]
  · obtain ⟨cd, hcd⟩ := DataFrame.find?_exists hcol
    simp [detect_outliers, hcd, hm1, hm2]
  · simp [chart_create, ht1, ht2, ht3, ht4, ht5, ht6, ht7, ht8, ht9]

theorem c6_witness :
    ("frobnicate" ∉ (["load", "info", "statistics", "correlations", "value_counts",
       "outliers", "quality", "full_report"] : List String) ∧
     "a" ∈ exDF.names ∧
     "mad" ∉ (["iqr", "zscore"] : List String) ∧
     "sankey" ∉ (["bar", "line", "scatter", "histogram", "box", "heatmap", "pie",
       "distribution", "pair_plot"] : List String)) ∧
    ((eda_run (some exDF) "frobnicate" {}).2 =
       .error ("Unknown action: " ++ "frobnicate") ∧
     detect_outliers (some exDF) "a" "mad" = .error ("Unknown method: " ++ "mad") ∧
     chart_create (some exDF) (some "sankey") {} =
       .error ("Unknown chart type: " ++ "sankey")) :=
  ⟨⟨by decide, by decide, by decide, by decide⟩,
    c6_unknown_dispatch_names_value (some exDF) "frobnicate" {} exDF "a" "mad" {}
      "sankey" (by decide) (by decide) (by decide) (by decide)⟩

/-- **C2**: a successful `detect_outliers` call with method `iqr` returns
`lower_bound = Q1 - 1.5*(Q3 - Q1)` and `upper_bound = Q3 + 1.5*(Q3 - Q1)`,
where `Q1` and `Q3` are the 0.25 and 0.75 quantiles of the column's
non-null values computed with linear interpolation. -/
theorem c2_iqr_bounds_formula (df : DataFrame) (col : String) (r : OutlierResult)
    (hok : detect_outliers (some df) col "iqr" = .ok r) :
    r.bounds =
      .iqr (quantile (1/4) (nonNullValues df col)
              - 3/2 * (quantile (3/4) (nonNullValues df col)
                        - quantile (1/4) (nonNullValues df col)))
           (quantile (3/4) (nonNullValues df col)
              + 3/2 * (quantile (3/4) (nonNullValues df col)
                        - quantile (1/4) (nonNullValues df col))) := by
  cases hfind : df.find? col with
  | none => simp [detect_outliers, hfind] at hok
  | some cd =>
    cases cd with
    | text vs => simp [detect_outliers, hfind] at hok
    | numeric vs =>
      have hnn : nonNullValues df col = dropNone vs := by
        unfold nonNullValues
        rw [hfind]
      by_cases hlen : (dropNone vs).length = 0
      · simp [detect_outliers, hfind, hlen] at hok
      · simp [detect_outliers, hfind, hlen] at hok
        rw [hnn, ← hok]
        norm_num

theorem c2_witness :
    detect_outliers (some exDF4) "a" "iqr" =
      .ok { column := "a", method := "iqr", outlierCount := 0, dataCount := 4,
            bounds := .iqr (-(1/2)) (11/2) } ∧
    ({ column := "a", method := "iqr", outlierCount := 0, dataCount := 4,
       bounds := .iqr (-(1/2)) (11/2) } : OutlierResult).bounds =
      .iqr (quantile (1/4) (nonNullValues exDF4 "a")
              - 3/2 * (quantile (3/4) (nonNullValues exDF4 "a")
                        - quantile (1/4) (nonNullValues exDF4 "a")))
           (quantile (3/4) (nonNullValues exDF4 "a")
              + 3/2 * (quantile (3/4) (nonNullValues exDF4 "a")
                        - quantile (1/4) (nonNullValues exDF4 "a"))) := by
  have h : detect_outliers (some exDF4) "a" "iqr" =
      .ok { column := "a", method := "iqr", outlierCount := 0, dataCount := 4,
            bounds := .iqr (-(1/2)) (11/2) } := by
    norm_num [detect_outliers, exDF4, DataFrame.find?, List.find?, dropNone,
      quantile, interpAt, List.insertionSort, List.orderedInsert, List.filterMap_cons,
      List.filter_cons, List.filter_nil,
      (show Int.toNat 0 = 0 from rfl), (show Int.toNat 2 = 2 from rfl)]
  exact ⟨h, c2_iqr_bounds_formula exDF4 "a" _ h⟩

/-- **C1 (counterexample)**: on the column 0,1,1,1,1,1,2 — which has
nonzero variance — the interpolated quartiles coincide, so the successful
iqr call returns `lower_bound = upper_bound = 1`, refuting
`lower_bound < upper_bound`. -/
theorem c1_counterexample :
    nonzeroVariance (nonNullValues exDF7 "a") ∧
    detect_outliers (some exDF7) "a" "iqr" =
      .ok { column := "a", method := "iqr", outlierCount := 2, dataCount := 7,
            bounds := .iqr 1 1 } ∧
    ¬((1 : ℚ) < 1) := by
  refine ⟨by decide, ?_, by norm_num⟩
  norm_num [detect_outliers, exDF7, DataFrame.find?, List.find?, dropNone,
    quantile, interpAt, List.insertionSort, List.orderedInsert,
    List.filterMap_cons, List.filter_cons, List.filter_nil,
    (show Int.toNat 1 = 1 from rfl), (show Int.toNat 4 = 4 from rfl)]

/-- **C1 (amended)**: on every successful `detect_outliers` call the
returned `outlier_count` equals the number of non-null values strictly
outside the closed interval `[lower_bound, upper_bound]` — for `zscore`
the bounds are the reals `mean ∓ 3·std` when at least two values exist,
and with a singleton column (NaN std) the count is 0 — and
`lower_bound ≤ upper_bound` whenever the column has nonzero variance,
strictly so for `zscore`, while for `iqr` strictness holds exactly when
`Q1 < Q3` (the originally claimed strict inequality fails when the
quartiles of a non-constant column coincide). -/
theorem c1_outlier_count_and_bounds_amended (df : DataFrame)
    (col method : String) (r : OutlierResult)
    (hok : detect_outliers (some df) col method = .ok r) :
    (∀ l u, r.bounds = .iqr l u →
      (r.outlierCount =
          ((nonNullValues df col).filter
            (fun x => decide (x < l) || decide (u < x))).length ∧
       (nonzeroVariance (nonNullValues df col) → l ≤ u) ∧
       (l < u ↔ quantile (1/4) (nonNullValues df col)
                  < quantile (3/4) (nonNullValues df col)))) ∧
    (∀ μ ov, r.bounds = .zscore μ ov →
      (r.outlierCount =
          ((nonNullValues df col).filter (zscoreOutlier μ ov)).length ∧
       (ov = none → r.outlierCount = 0) ∧
       (∀ v, ov = some v → 0 ≤ v ∧
         ∀ x : ℚ, (zscoreOutlier μ (some v) x = true ↔
           ((x : ℝ) < OutlierBounds.realLower (.zscore μ (some v)) ∨
            OutlierBounds.realUpper (.zscore μ (some v)) < (x : ℝ)))) ∧
       (nonzeroVariance (nonNullValues df col) →
         OutlierBounds.realLower r.bounds < OutlierBounds.realUpper r.bounds))) := by
  cases hfind : df.find? col with
  | none => simp [detect_outliers, hfind] at hok
  | some cd =>
    cases cd with
    | text tvs =>
      by_cases him : method = "iqr"
      · subst him; simp [detect_outliers, hfind] at hok
      · by_cases hzm : method = "zscore"
        · subst hzm; simp [detect_outliers, hfind] at hok
        · simp [detect_outliers, hfind, him, hzm] at hok
    | numeric vs =>
      have hnn : nonNullValues df col = dropNone vs := by
        unfold nonNullValues
        rw [hfind]
      by_cases hlen : (dropNone vs).length = 0
      · by_cases him : method = "iqr"
        · subst him; simp [detect_outliers, hfind, hlen] at hok
        · by_cases hzm : method = "zscore"
          · subst hzm; simp [detect_outliers, hfind, hlen] at hok
          · simp [detect_outliers, hfind, him, hzm] at hok
      · by_cases him : method = "iqr"
        · subst him
          simp [detect_outliers, hfind, hlen] at hok
          subst hok
          have hq := quantile_le_quantile (dropNone vs)
            (show (0:ℚ) ≤ 1/4 by norm_num) (show (3:ℚ)/4 ≤ 1 by norm_num)
            (show (1:ℚ)/4 ≤ 3/4 by norm_num)
          constructor
          · intro l u hb
            injection hb with hl hu
            subst hl
            subst hu
            rw [hnn]
            refine ⟨rfl, fun _ => ?_, ?_⟩
            · norm_num
              linarith
            · constructor
              · intro h
                norm_num at h ⊢
                linarith
              · intro h
                norm_num at h ⊢
                linarith
          · intro μ ov hb
            exact absurd hb (by simp)
        · by_cases hzm : method = "zscore"
          · subst hzm
            simp [detect_outliers, hfind, hlen] at hok
            subst hok
            constructor
            · intro l u hb
              exact absurd hb (by simp)
            · intro μ ov hb
              injection hb with hμ hov
              subst hμ
              subst hov
              rw [hnn]
              refine ⟨rfl, ?_, ?_, ?_⟩
              · intro h0
                rw [h0]
                simp [zscoreOutlier]
              · intro v hv
                refine ⟨sampleVar_nonneg hv, fun x => ?_⟩
                simp only [OutlierBounds.realLower, OutlierBounds.realUpper]
                exact zscore_bridge _ v x (sampleVar_nonneg hv)
              · intro h
                have h2 := nonzeroVariance_two_le_length h
                have hv := sampleVar_some_of_two_le h2
                have hpos := sampleVar_pos hv h
                have hsR : (0:ℝ) < (sqDevSum (dropNone vs)
                    / (((dropNone vs).length : ℚ) - 1) : ℚ) := by
                  exact_mod_cast hpos
                have hs := Real.sqrt_pos.mpr hsR
                simp only [hv, OutlierBounds.realLower, OutlierBounds.realUpper]
                linarith
          · simp [detect_outliers, hfind, him, hzm] at hok

theorem c1_witness :
    detect_outliers (some exDF4) "a" "iqr" = .ok exOutlierResult4 ∧
    ((∀ l u, exOutlierResult4.bounds = .iqr l u →
      (exOutlierResult4.outlierCount =
          ((nonNullValues exDF4 "a").filter
            (fun x => decide (x < l) || decide (u < x))).length ∧
       (nonzeroVariance (nonNullValues exDF4 "a") → l ≤ u) ∧
       (l < u ↔ quantile (1/4) (nonNullValues exDF4 "a")
                  < quantile (3/4) (nonNullValues exDF4 "a")))) ∧
     (∀ μ ov, exOutlierResult4.bounds = .zscore μ ov →
      (exOutlierResult4.outlierCount =
          ((nonNullValues exDF4 "a").filter (zscoreOutlier μ ov)).length ∧
       (ov = none → exOutlierResult4.outlierCount = 0) ∧
       (∀ v, ov = some v → 0 ≤ v ∧
         ∀ x : ℚ, (zscoreOutlier μ (some v) x = true ↔
           ((x : ℝ) < OutlierBounds.realLower (.zscore μ (some v)) ∨
            OutlierBounds.realUpper (.zscore μ (some v)) < (x : ℝ)))) ∧
       (nonzeroVariance (nonNullValues exDF4 "a") →
         OutlierBounds.realLower exOutlierResult4.bounds
           < OutlierBounds.realUpper exOutlierResult4.bounds)))) := by
  have h : detect_outliers (some exDF4) "a" "iqr" = .ok exOutlierResult4 := by
    unfold exOutlierResult4
    norm_num [detect_outliers, exDF4, DataFrame.find?, List.find?, dropNone,
      quantile, interpAt, List.insertionSort, List.orderedInsert,
      List.filterMap_cons, List.filter_cons, List.filter_nil,
      (show Int.toNat 0 = 0 from rfl), (show Int.toNat 2 = 2 from rfl)]
  exact ⟨h, c1_outlier_count_and_bounds_amended exDF4 "a" "iqr" _ h⟩

/-- **C3**: on every successful `get_correlations` call the returned column
list is the numeric-column list; the matrix is symmetric; the diagonal entry
of every numeric column with nonzero variance is a coefficient whose real
value is `1`; `high_correlations` contains exactly the pairs of columns at
ordered index pairs `i < j` whose real absolute correlation exceeds `0.7`;
and (with the numeric column names distinct) each unordered pair of distinct
columns appears at most once. -/
theorem c3_correlations (cur : Option DataFrame) (df : DataFrame)
    (method : String) (r : CorrResult)
    (hcur : cur = some df) (hnd : (numericNames df).Nodup)
    (hok : get_correlations cur method = .ok r) :
    r.columns = numericNames df ∧
    (∀ i j, matrixEntry r.matrix i j = matrixEntry r.matrix j i) ∧
    (∀ i, i < r.columns.length →
      nonzeroVariance (dropNone (numericColAt df i)) →
      ∃ p, matrixEntry r.matrix i i = some p ∧ corrReal p = 1) ∧
    (∀ c1 c2 p, (c1, c2, p) ∈ r.highCorrelations ↔
      ∃ i j, i < j ∧ i < r.columns.length ∧ j < r.columns.length ∧
        r.columns.getD i "" = c1 ∧ r.columns.getD j "" = c2 ∧
        matrixEntry r.matrix i j = some p ∧ 7/10 < |corrReal p|) ∧
    ((r.highCorrelations.map (fun t => (t.1, t.2.1))).Nodup) := by
  subst hcur
  simp only [get_correlations] at hok
  split_ifs at hok with hemp
  cases hfn : corrFnFor method with
  | none =>
    rw [hfn] at hok
    cases hok
  | some f =>
    rw [hfn] at hok
    have hf := corrFnFor_cases hfn
    injection hok with hr
    subst hr
    refine ⟨rfl, ?_, ?_, ?_, ?_⟩
    · intro i j
      show matrixEntry (corrMatrix f (numericCols df)) i j
          = matrixEntry (corrMatrix f (numericCols df)) j i
      by_cases hi : i < (numericCols df).length
      · by_cases hj : j < (numericCols df).length
        · rw [corrMatrix_entry f _ hi hj, corrMatrix_entry f _ hj hi]
          exact corrFn_symm hf _ _
        · rw [corrMatrix_entry_none f _ (Or.inr (Nat.le_of_not_lt hj)),
            corrMatrix_entry_none f _ (Or.inl (Nat.le_of_not_lt hj))]
      · rw [corrMatrix_entry_none f _ (Or.inl (Nat.le_of_not_lt hi)),
          corrMatrix_entry_none f _ (Or.inr (Nat.le_of_not_lt hi))]
    · intro i hi hvar
      have hi' : i < (numericCols df).length := by
        simpa using hi
      show ∃ p, matrixEntry (corrMatrix f (numericCols df)) i i = some p
          ∧ corrReal p = 1
      rw [corrMatrix_entry f _ hi' hi']
      obtain ⟨S, hS, hEq⟩ := corrFn_self hf hvar
      exact ⟨(S, S * S), hEq, corrReal_diag hS⟩
    · intro c1 c2 p
      show (c1, c2, p) ∈ highPairs ((numericCols df).map Prod.fst)
            (corrMatrix f (numericCols df)) ↔ _
      rw [highPairs_mem]
      constructor
      · rintro ⟨i, j, hij, hi, hj, hc1, hc2, hent, htest⟩
        have hi' : i < (numericCols df).length := by simpa using hi
        have hj' : j < (numericCols df).length := by simpa using hj
        have hd : 0 < p.2 := corrFn_d_pos hf
          (by rwa [corrMatrix_entry f _ hi' hj'] at hent)
        exact ⟨i, j, hij, hi, hj, hc1, hc2, hent, (highTest_iff_real hd).mp htest⟩
      · rintro ⟨i, j, hij, hi, hj, hc1, hc2, hent, hreal⟩
        have hi' : i < (numericCols df).length := by simpa using hi
        have hj' : j < (numericCols df).length := by simpa using hj
        have hd : 0 < p.2 := corrFn_d_pos hf
          (by rwa [corrMatrix_entry f _ hi' hj'] at hent)
        exact ⟨i, j, hij, hi, hj, hc1, hc2, hent, (highTest_iff_real hd).mpr hreal⟩
    · show ((highPairs ((numericCols df).map Prod.fst)
          (corrMatrix f (numericCols df))).map (fun t => (t.1, t.2.1))).Nodup
      refine highPairs_nodup hnd ?_
      intro i j hle
      refine corrMatrix_entry_none f _ ?_
      rcases hle with h | h
      · exact Or.inl (by simpa using h)
      · exact Or.inr (by simpa using h)

/-- Witness for **C3**: Pearson correlations of the frame with columns
`a = [1, 2, 3]`, `b = [2, 4, 6]` and a text column; the matrix is
`[[(2, 4), (4, 16)], [(4, 16), (8, 64)]]` (so both correlations are `1`)
and `high_correlations` is exactly `[("a", "b", (4, 16))]`. -/
theorem c3_witness :
    (numericNames exDF2).Nodup ∧
    get_correlations (some exDF2) "pearson" = .ok exCorrResult2 ∧
    (exCorrResult2.columns = numericNames exDF2 ∧
     (∀ i j, matrixEntry exCorrResult2.matrix i j
        = matrixEntry exCorrResult2.matrix j i) ∧
     (∀ i, i < exCorrResult2.columns.length →
       nonzeroVariance (dropNone (numericColAt exDF2 i)) →
       ∃ p, matrixEntry exCorrResult2.matrix i i = some p ∧ corrReal p = 1) ∧
     (∀ c1 c2 p, (c1, c2, p) ∈ exCorrResult2.highCorrelations ↔
       ∃ i j, i < j ∧ i < exCorrResult2.columns.length ∧
         j < exCorrResult2.columns.length ∧
         exCorrResult2.columns.getD i "" = c1 ∧
         exCorrResult2.columns.getD j "" = c2 ∧
         matrixEntry exCorrResult2.matrix i j = some p ∧
         7/10 < |corrReal p|) ∧
     ((exCorrResult2.highCorrelations.map (fun t => (t.1, t.2.1))).Nodup)) := by
  have hnd : (numericNames exDF2).Nodup := by decide
  have hok : get_correlations (some exDF2) "pearson" = .ok exCorrResult2 := by
    norm_num [get_correlations, exDF2, exCorrResult2, numericCols, corrFnFor,
      DataFrame.nRows, corrMatrix, corrPearson, pearsonNum, validPairs,
      listMean, sqDevSum, highPairs, highBody, matrixEntry, ColumnData.length,
      List.filterMap_cons, List.zip_cons_cons, List.map_cons, List.sum_cons,
      (show List.range 2 = [0, 1] from rfl), List.product, List.flatMap_cons]
  exact ⟨hnd, hok,
    c3_correlations (some exDF2) exDF2 "pearson" exCorrResult2 rfl hnd hok⟩

end DataTools
